import Mathlib

/-!
Verification development for the Cauldron/Frostbite runtime support library:
a shallow embedding of the soft-float engine (frostbite_softfloat.c) and of
the segmented bump allocator (frostbite_alloc.c), together with theorems
checking the specified properties against the embedded code.

Bit patterns of float / double values are modelled as natural numbers; C
unsigned arithmetic that can wrap is reduced modulo 2^32 or 2^64 at the
points where the C code wraps.  Signed C `int` intermediates that can go
negative are modelled as Int.  Functions that can terminate the process
through fb_alloc_panic are modelled as Option-valued, `none` standing for
the fatal diagnostic path.
-/

def U32 : Nat := 4294967296

def U64 : Nat := 18446744073709551616

/-! ### Soft-float engine: 32-bit track (frostbite_softfloat.c) -/

def f32_sign (a : Nat) : Nat := (a >>> 31) &&& 1

def f32_exp (a : Nat) : Nat := (a >>> 23) &&& 0xFF

def f32_frac (a : Nat) : Nat := a &&& 0x7FFFFF

def f32_is_nan (a : Nat) : Bool := f32_exp a == 0xFF && f32_frac a != 0

/-- Comparison primitive `f32_cmp`: result value and the unordered flag.
The fixed-point transform on negative patterns follows the C source, where
`0x80000000 - sa` is computed in unsigned arithmetic and stored back into a
signed register, which amounts to `2^31 - ua` for a pattern with the sign
bit set. -/
def f32_cmp (ua ub : Nat) : Int × Bool :=
  if f32_is_nan ua || f32_is_nan ub then (0, true)
  else if ua &&& 0x7FFFFFFF = 0 ∧ ub &&& 0x7FFFFFFF = 0 then (0, false)
  else
    let sa : Int := if ua < 0x80000000 then (ua : Int) else (0x80000000 : Int) - (ua : Int)
    let sb : Int := if ub < 0x80000000 then (ub : Int) else (0x80000000 : Int) - (ub : Int)
    if sa < sb then (-1, false)
    else if sb < sa then (1, false)
    else (0, false)

def __gtsf2 (ua ub : Nat) : Int :=
  let c := f32_cmp ua ub
  if c.2 then -1 else c.1

def __gesf2 (ua ub : Nat) : Int :=
  let c := f32_cmp ua ub
  if c.2 then -1 else c.1

def __ltsf2 (ua ub : Nat) : Int :=
  let c := f32_cmp ua ub
  if c.2 then 1 else c.1

def __lesf2 (ua ub : Nat) : Int :=
  let c := f32_cmp ua ub
  if c.2 then 1 else c.1

def __eqsf2 (ua ub : Nat) : Int :=
  let c := f32_cmp ua ub
  if c.2 then 1 else if c.1 = 0 then 0 else 1

def __nesf2 (ua ub : Nat) : Int :=
  let c := f32_cmp ua ub
  if c.2 then 1 else if c.1 = 0 then 0 else 1

def __unordsf2 (ua ub : Nat) : Int :=
  if (f32_exp ua = 0xFF ∧ f32_frac ua ≠ 0) ∨ (f32_exp ub = 0xFF ∧ f32_frac ub ≠ 0) then 1 else 0

/-- First normalisation loop of add/div: `while (fr >= 0x1000000) fr >>= 1, er++`.
The counter only bounds the iterations; 64 steps cover every 64-bit `fr`
exactly, since each iteration at least halves `fr`. -/
def f32_norm_up_go : Nat → Nat → Int → Nat × Int
  | 0, fr, er => (fr, er)
  | fuel + 1, fr, er =>
    if 0x1000000 ≤ fr then f32_norm_up_go fuel (fr >>> 1) (er + 1) else (fr, er)

def f32_norm_up (fr : Nat) (er : Int) : Nat × Int := f32_norm_up_go 64 fr er

/-- Second normalisation loop: `while (fr < 0x800000 && er > 0) fr <<= 1, er--`.
Each iteration decrements `er > 0`, so `er.toNat` steps are exact. -/
def f32_norm_down_go : Nat → Nat → Int → Nat × Int
  | 0, fr, er => (fr, er)
  | fuel + 1, fr, er =>
    if fr < 0x800000 ∧ 0 < er then f32_norm_down_go fuel (fr <<< 1) (er - 1) else (fr, er)

def f32_norm_down (fr : Nat) (er : Int) : Nat × Int := f32_norm_down_go er.toNat fr er

/-- Tail of `__addsf3` after the mantissa add/sub: zero check, both
normalisation loops, overflow / underflow clamping, packing. -/
def f32_add_finish (sr fr : Nat) (er : Int) : Nat :=
  if fr = 0 then 0
  else
    let p := f32_norm_up fr er
    let q := f32_norm_down p.1 p.2
    if (255 : Int) ≤ q.2 then (if sr ≠ 0 then 0xFF800000 else 0x7F800000)
    else if q.2 ≤ 0 then sr <<< 31
    else (sr <<< 31) ||| (q.2.toNat <<< 23) ||| (q.1 &&& 0x7FFFFF)

/-- Mantissa combination step of `__addsf3` on already-aligned operands. -/
def f32_add_core (sa fa sb fb : Nat) (er : Int) : Nat :=
  if sa = sb then f32_add_finish sa (fa + fb) er
  else if fb ≤ fa then f32_add_finish sa (fa - fb) er
  else f32_add_finish sb (fb - fa) er

def __addsf3 (ua ub : Nat) : Nat :=
  if ua &&& 0x7FFFFFFF = 0 then ub
  else if ub &&& 0x7FFFFFFF = 0 then ua
  else if f32_exp ua = 0 then ub
  else if f32_exp ub = 0 then ua
  else if f32_exp ub < f32_exp ua then
    if 24 < f32_exp ua - f32_exp ub then ua
    else
      f32_add_core (f32_sign ua) (f32_frac ua ||| 0x800000) (f32_sign ub)
        ((f32_frac ub ||| 0x800000) >>> (f32_exp ua - f32_exp ub)) (f32_exp ua : Int)
  else if f32_exp ua < f32_exp ub then
    if 24 < f32_exp ub - f32_exp ua then ub
    else
      f32_add_core (f32_sign ua) ((f32_frac ua ||| 0x800000) >>> (f32_exp ub - f32_exp ua))
        (f32_sign ub) (f32_frac ub ||| 0x800000) (f32_exp ub : Int)
  else
    f32_add_core (f32_sign ua) (f32_frac ua ||| 0x800000) (f32_sign ub)
      (f32_frac ub ||| 0x800000) (f32_exp ua : Int)

/-- Tail of `__mulsf3` after the special cases: one conditional right shift,
then overflow / underflow clamping and packing. -/
def f32_mul_finish (sr fr0 : Nat) (er0 : Int) : Nat :=
  let fr := if 0x1000000 ≤ fr0 then fr0 >>> 1 else fr0
  let er := if 0x1000000 ≤ fr0 then er0 + 1 else er0
  if (255 : Int) ≤ er then (sr <<< 31) ||| 0x7F800000
  else if er ≤ 0 then sr <<< 31
  else (sr <<< 31) ||| (er.toNat <<< 23) ||| (fr &&& 0x7FFFFF)

def __mulsf3 (ua ub : Nat) : Nat :=
  if ua &&& 0x7FFFFFFF = 0 ∨ ub &&& 0x7FFFFFFF = 0 then
    (f32_sign ua ^^^ f32_sign ub) <<< 31
  else if f32_exp ua = 255 ∨ f32_exp ub = 255 then
    ((f32_sign ua ^^^ f32_sign ub) <<< 31) ||| 0x7F800000
  else
    f32_mul_finish (f32_sign ua ^^^ f32_sign ub)
      (((f32_frac ua ||| 0x800000) * (f32_frac ub ||| 0x800000)) >>> 23)
      ((f32_exp ua : Int) + (f32_exp ub : Int) - 127)

/-- Tail of `__divsf3`: both normalisation loops, clamping, packing. -/
def f32_div_finish (sr fr : Nat) (er : Int) : Nat :=
  let p := f32_norm_up fr er
  let q := f32_norm_down p.1 p.2
  if (255 : Int) ≤ q.2 then (sr <<< 31) ||| 0x7F800000
  else if q.2 ≤ 0 then sr <<< 31
  else (sr <<< 31) ||| (q.2.toNat <<< 23) ||| (q.1 &&& 0x7FFFFF)

def __divsf3 (ua ub : Nat) : Nat :=
  if ub &&& 0x7FFFFFFF = 0 then ((f32_sign ua ^^^ f32_sign ub) <<< 31) ||| 0x7F800000
  else if ua &&& 0x7FFFFFFF = 0 then (f32_sign ua ^^^ f32_sign ub) <<< 31
  else
    f32_div_finish (f32_sign ua ^^^ f32_sign ub)
      (((f32_frac ua ||| 0x800000) <<< 24) / (f32_frac ub ||| 0x800000))
      ((f32_exp ua : Int) - (f32_exp ub : Int) + 127)

/-- Leading-bit normalisation loop of `__floatsisf`:
`while ((ua & 0x80000000) == 0) ua <<= 1, e--`.  The C loop diverges on
`ua = 0`, a case its caller excludes; 32 fuel steps cover every nonzero
32-bit input exactly. -/
def f32_lead_norm : Nat → Nat → Nat → Nat × Nat
  | 0, ua, e => (ua, e)
  | fuel + 1, ua, e =>
    if ua &&& 0x80000000 = 0 then f32_lead_norm fuel ((ua <<< 1) % U32) (e - 1)
    else (ua, e)

def __floatsisf (a : Int) : Nat :=
  if a = 0 then 0
  else
    let s : Nat := if a < 0 then 1 else 0
    let ua : Nat := if a < 0 then (-a).toNat % U32 else a.toNat % U32
    let p := f32_lead_norm 32 ua 158
    (s <<< 31) ||| (p.2 <<< 23) ||| ((p.1 >>> 8) &&& 0x7FFFFF)

def __fixunssfsi (ua : Nat) : Nat :=
  if f32_sign ua ≠ 0 then 0
  else
    let e := f32_exp ua
    let f := f32_frac ua ||| 0x800000
    if e < 127 then 0
    else if 127 + 32 ≤ e then 0xFFFFFFFF
    else if 150 ≤ e then (f <<< (e - 150)) % U32
    else f >>> (150 - e)

def __negsf2 (ua : Nat) : Nat := ua ^^^ 0x80000000

/-! ### Soft-float engine: 64-bit track -/

def f64_sign (a : Nat) : Nat := (a >>> 63) &&& 1

def f64_exp (a : Nat) : Nat := (a >>> 52) &&& 0x7FF

def f64_frac (a : Nat) : Nat := a &&& 0xFFFFFFFFFFFFF

def f64_is_nan (a : Nat) : Bool := f64_exp a == 0x7FF && f64_frac a != 0

def f64_cmp (ua ub : Nat) : Int × Bool :=
  if f64_is_nan ua || f64_is_nan ub then (0, true)
  else if ua &&& 0x7FFFFFFFFFFFFFFF = 0 ∧ ub &&& 0x7FFFFFFFFFFFFFFF = 0 then (0, false)
  else
    let sa := f64_sign ua
    let sb := f64_sign ub
    if sa ≠ sb then (if sa ≠ 0 then -1 else 1, false)
    else
      let ma := ua &&& 0x7FFFFFFFFFFFFFFF
      let mb := ub &&& 0x7FFFFFFFFFFFFFFF
      if ma = mb then (0, false)
      else if sa = 0 then (if ma < mb then -1 else 1, false)
      else (if ma < mb then 1 else -1, false)

def __gtdf2 (ua ub : Nat) : Int :=
  let c := f64_cmp ua ub
  if c.2 then -1 else c.1

def __gedf2 (ua ub : Nat) : Int :=
  let c := f64_cmp ua ub
  if c.2 then -1 else c.1

def __ltdf2 (ua ub : Nat) : Int :=
  let c := f64_cmp ua ub
  if c.2 then 1 else c.1

def __ledf2 (ua ub : Nat) : Int :=
  let c := f64_cmp ua ub
  if c.2 then 1 else c.1

def __eqdf2 (ua ub : Nat) : Int :=
  let c := f64_cmp ua ub
  if c.2 then 1 else if c.1 = 0 then 0 else 1

def __nedf2 (ua ub : Nat) : Int :=
  let c := f64_cmp ua ub
  if c.2 then 1 else if c.1 = 0 then 0 else 1

def __unorddf2 (ua ub : Nat) : Int :=
  if (f64_exp ua = 0x7FF ∧ f64_frac ua ≠ 0) ∨ (f64_exp ub = 0x7FF ∧ f64_frac ub ≠ 0) then 1 else 0

/-- The 32-bit cross-product accumulator `mid` of `mul_u64`. -/
def mul_u64_mid (p1 p2 p0 : Nat) : Nat :=
  (p1 &&& 0xFFFFFFFF) + (p2 &&& 0xFFFFFFFF) + (p0 >>> 32)

/-- 64x64 -> 128 bit multiply from four 32x32 partial products (`mul_u64`). -/
def mul_u64 (a b : Nat) : Nat × Nat :=
  (((a >>> 32) * (b >>> 32) + ((a &&& 0xFFFFFFFF) * (b >>> 32)) >>> 32 +
      ((a >>> 32) * (b &&& 0xFFFFFFFF)) >>> 32 +
      (mul_u64_mid ((a &&& 0xFFFFFFFF) * (b >>> 32)) ((a >>> 32) * (b &&& 0xFFFFFFFF))
        ((a &&& 0xFFFFFFFF) * (b &&& 0xFFFFFFFF))) >>> 32) % U64,
   ((mul_u64_mid ((a &&& 0xFFFFFFFF) * (b >>> 32)) ((a >>> 32) * (b &&& 0xFFFFFFFF))
        ((a &&& 0xFFFFFFFF) * (b &&& 0xFFFFFFFF))) <<< 32) % U64 |||
     ((a &&& 0xFFFFFFFF) * (b &&& 0xFFFFFFFF)) &&& 0xFFFFFFFF)

/-- One step per iteration of the 128-iteration restoring division loop
`div_u128_u64`; the first argument counts remaining iterations. -/
def div_u128_go : Nat → Nat → Nat → Nat → Nat → Nat → Nat
  | 0, _, _, _, q, _ => q
  | i + 1, hi, lo, r, q, d =>
    let r2 := ((r <<< 1) % U64) ||| (hi >>> 63)
    let hi2 := ((hi <<< 1) % U64) ||| (lo >>> 63)
    let lo2 := (lo <<< 1) % U64
    let q2 := (q <<< 1) % U64
    if d ≤ r2 then div_u128_go i hi2 lo2 (r2 - d) (q2 ||| 1) d
    else div_u128_go i hi2 lo2 r2 q2 d

def div_u128_u64 (hi lo d : Nat) : Nat := div_u128_go 128 hi lo 0 0 d

/-- Leading-bit normalisation loop of `u64_to_f64_bits`; 64 fuel steps cover
every nonzero 64-bit input exactly (the C loop diverges on zero, a case its
caller excludes). -/
def f64_lead_norm : Nat → Nat → Nat → Nat × Nat
  | 0, a, e => (a, e)
  | fuel + 1, a, e =>
    if a &&& 0x8000000000000000 = 0 then f64_lead_norm fuel ((a <<< 1) % U64) (e - 1)
    else (a, e)

def u64_to_f64_bits (a : Nat) (sign : Nat) : Nat :=
  if a = 0 then sign <<< 63
  else
    let p := f64_lead_norm 64 a 1086
    (sign <<< 63) ||| (p.2 <<< 52) ||| ((p.1 >>> 11) &&& 0xFFFFFFFFFFFFF)

def f64_norm_up_go : Nat → Nat → Int → Nat × Int
  | 0, fr, er => (fr, er)
  | fuel + 1, fr, er =>
    if 0x20000000000000 ≤ fr then f64_norm_up_go fuel (fr >>> 1) (er + 1) else (fr, er)

def f64_norm_up (fr : Nat) (er : Int) : Nat × Int := f64_norm_up_go 64 fr er

def f64_norm_down_go : Nat → Nat → Int → Nat × Int
  | 0, fr, er => (fr, er)
  | fuel + 1, fr, er =>
    if fr < 0x10000000000000 ∧ 0 < er then f64_norm_down_go fuel (fr <<< 1) (er - 1) else (fr, er)

def f64_norm_down (fr : Nat) (er : Int) : Nat × Int := f64_norm_down_go er.toNat fr er

def f64_add_finish (sr fr : Nat) (er : Int) : Nat :=
  if fr = 0 then 0
  else
    let p := f64_norm_up fr er
    let q := f64_norm_down p.1 p.2
    if (0x7FF : Int) ≤ q.2 then (sr <<< 63) ||| (0x7FF <<< 52)
    else if q.2 ≤ 0 then sr <<< 63
    else (sr <<< 63) ||| (q.2.toNat <<< 52) ||| (q.1 &&& 0xFFFFFFFFFFFFF)

def f64_add_core (sa fa sb fb : Nat) (er : Int) : Nat :=
  if sa = sb then f64_add_finish sa (fa + fb) er
  else if fb ≤ fa then f64_add_finish sa (fa - fb) er
  else f64_add_finish sb (fb - fa) er

def __adddf3 (ua ub : Nat) : Nat :=
  if ua &&& 0x7FFFFFFFFFFFFFFF = 0 then ub
  else if ub &&& 0x7FFFFFFFFFFFFFFF = 0 then ua
  else if f64_exp ua = 0 then ub
  else if f64_exp ub = 0 then ua
  else if f64_exp ua = 0x7FF then ua
  else if f64_exp ub = 0x7FF then ub
  else if f64_exp ub < f64_exp ua then
    if 60 < f64_exp ua - f64_exp ub then ua
    else
      f64_add_core (f64_sign ua) (f64_frac ua ||| 0x10000000000000) (f64_sign ub)
        ((f64_frac ub ||| 0x10000000000000) >>> (f64_exp ua - f64_exp ub)) (f64_exp ua : Int)
  else if f64_exp ua < f64_exp ub then
    if 60 < f64_exp ub - f64_exp ua then ub
    else
      f64_add_core (f64_sign ua) ((f64_frac ua ||| 0x10000000000000) >>> (f64_exp ub - f64_exp ua))
        (f64_sign ub) (f64_frac ub ||| 0x10000000000000) (f64_exp ub : Int)
  else
    f64_add_core (f64_sign ua) (f64_frac ua ||| 0x10000000000000) (f64_sign ub)
      (f64_frac ub ||| 0x10000000000000) (f64_exp ua : Int)

/-- Tail of `__muldf3` after the special cases: assemble the 53-bit window of
the 128-bit product, one conditional right shift, clamping and packing. -/
def f64_mul_finish (sr : Nat) (p : Nat × Nat) (er0 : Int) : Nat :=
  let fr0 := ((p.1 <<< 12) % U64) ||| (p.2 >>> 52)
  let fr := if 0x20000000000000 ≤ fr0 then fr0 >>> 1 else fr0
  let er := if 0x20000000000000 ≤ fr0 then er0 + 1 else er0
  if (0x7FF : Int) ≤ er then (sr <<< 63) ||| (0x7FF <<< 52)
  else if er ≤ 0 then sr <<< 63
  else (sr <<< 63) ||| (er.toNat <<< 52) ||| (fr &&& 0xFFFFFFFFFFFFF)

def __muldf3 (ua ub : Nat) : Nat :=
  if ua &&& 0x7FFFFFFFFFFFFFFF = 0 ∨ ub &&& 0x7FFFFFFFFFFFFFFF = 0 then
    (f64_sign ua ^^^ f64_sign ub) <<< 63
  else if f64_exp ua = 0x7FF ∨ f64_exp ub = 0x7FF then
    ((f64_sign ua ^^^ f64_sign ub) <<< 63) ||| (0x7FF <<< 52)
  else
    f64_mul_finish (f64_sign ua ^^^ f64_sign ub)
      (mul_u64 (f64_frac ua ||| 0x10000000000000) (f64_frac ub ||| 0x10000000000000))
      ((f64_exp ua : Int) + (f64_exp ub : Int) - 1023)

def f64_div_finish (sr fr : Nat) (er : Int) : Nat :=
  let p := f64_norm_up fr er
  let q := f64_norm_down p.1 p.2
  if (0x7FF : Int) ≤ q.2 then (sr <<< 63) ||| (0x7FF <<< 52)
  else if q.2 ≤ 0 then sr <<< 63
  else (sr <<< 63) ||| (q.2.toNat <<< 52) ||| (q.1 &&& 0xFFFFFFFFFFFFF)

def __divdf3 (ua ub : Nat) : Nat :=
  if ub &&& 0x7FFFFFFFFFFFFFFF = 0 then
    ((f64_sign ua ^^^ f64_sign ub) <<< 63) ||| (0x7FF <<< 52)
  else if ua &&& 0x7FFFFFFFFFFFFFFF = 0 then (f64_sign ua ^^^ f64_sign ub) <<< 63
  else if f64_exp ua = 0x7FF ∨ f64_exp ub = 0x7FF then
    ((f64_sign ua ^^^ f64_sign ub) <<< 63) ||| (0x7FF <<< 52)
  else
    f64_div_finish (f64_sign ua ^^^ f64_sign ub)
      (div_u128_u64 ((f64_frac ua ||| 0x10000000000000) >>> 11)
        (((f64_frac ua ||| 0x10000000000000) <<< 53) % U64) (f64_frac ub ||| 0x10000000000000))
      ((f64_exp ua : Int) - (f64_exp ub : Int) + 1023)

def __negdf2 (ua : Nat) : Nat := ua ^^^ 0x8000000000000000

def __floatsidf (a : Int) : Nat :=
  let sign : Nat := if a < 0 then 1 else 0
  let ua0 : Nat := (a % (4294967296 : Int)).toNat
  let ua : Nat := if a < 0 then (((U64 - 1) - ua0) + 1) % U64 else ua0
  u64_to_f64_bits ua sign

def __fixunsdfsi (ua : Nat) : Nat :=
  if f64_sign ua ≠ 0 then 0
  else
    let e := f64_exp ua
    let f := f64_frac ua ||| 0x10000000000000
    if e < 1023 then 0
    else if 1023 + 32 ≤ e then 0xFFFFFFFF
    else
      let result := if 1075 ≤ e then (f <<< (e - 1075)) % U64 else f >>> (1075 - e)
      result % U32

def __fixunsdfdi (ua : Nat) : Nat :=
  if f64_sign ua ≠ 0 then 0
  else
    let e := f64_exp ua
    let f := f64_frac ua ||| 0x10000000000000
    if e < 1023 then 0
    else if 1023 + 64 ≤ e then 0xFFFFFFFFFFFFFFFF
    else if 1075 ≤ e then (f <<< (e - 1075)) % U64
    else f >>> (1075 - e)

/-! ### Rational semantics of bit patterns

Decoders from bit patterns to the represented rational value, following the
data model of the specification (sign / biased exponent / fraction, with the
implicit leading bit restored for normal values).  Only meaningful on
patterns whose exponent field is below the maximum. -/

def f32toQ (bits : Nat) : ℚ :=
  if f32_exp bits = 0 then
    (if f32_sign bits = 1 then (-1 : ℚ) else 1) * ((f32_frac bits : Nat) : ℚ) *
      (2 : ℚ) ^ (-149 : ℤ)
  else
    (if f32_sign bits = 1 then (-1 : ℚ) else 1) * (((2 ^ 23 + f32_frac bits : Nat) : ℚ)) *
      (2 : ℚ) ^ ((f32_exp bits : ℤ) - 150)

def f64toQ (bits : Nat) : ℚ :=
  if f64_exp bits = 0 then
    (if f64_sign bits = 1 then (-1 : ℚ) else 1) * ((f64_frac bits : Nat) : ℚ) *
      (2 : ℚ) ^ (-1074 : ℤ)
  else
    (if f64_sign bits = 1 then (-1 : ℚ) else 1) * (((2 ^ 52 + f64_frac bits : Nat) : ℚ)) *
      (2 : ℚ) ^ ((f64_exp bits : ℤ) - 1075)

/-! ### Segmented allocator (frostbite_alloc.c) -/

/-- The allocator's process-wide mutable state: the static variables of
frostbite_alloc.c.  `ptr = 0` models a NULL `fb_heap_ptr`. -/
structure Heap where
  ptr : Nat
  heapEnd : Nat
  segStart : Nat
  segCount : Nat
  segIndex : Nat
  segBytes : Nat
  segOffset : Nat
  useSegments : Bool
deriving DecidableEq, Repr

/-- `FB_SEGMENT_ADDR(seg, offset) = ((uint64_t)seg << 28) | (offset & 0x0FFFFFFF)`. -/
def FB_SEGMENT_ADDR (seg offset : Nat) : Nat :=
  (seg <<< 28) ||| (offset &&& 0x0FFFFFFF)

def fb_is_segment_addr (addr : Nat) : Bool :=
  ((addr >>> 28) &&& 0x0F) != 0

def fb_align_up (value align : Nat) : Nat :=
  ((value + align - 1) % U64) &&& ((U64 - align) % U64)

/-- `fb_heap_set_segment`; `none` is the fatal `fb_alloc_panic` path. -/
def fb_heap_set_segment (h : Heap) (index : Nat) : Option Heap :=
  if h.segStart = 0 ∨ h.segCount = 0 then none
  else if h.segCount ≤ index then some { h with ptr := 0, heapEnd := 0 }
  else
    let segment := (h.segStart + index) % U32
    let offset := if index = 0 then h.segOffset else 0
    if h.segBytes ≤ offset then none
    else
      let base := FB_SEGMENT_ADDR segment offset
      some { h with ptr := base, heapEnd := (base + (h.segBytes - offset)) % U64 }

/-- The compiled-in default configuration (FB_HEAP_SEGMENT = 1,
FB_HEAP_SEGMENT_COUNT = 1, FB_RAM_BYTES = 4 MiB, FB_HEAP_OFFSET = 0). -/
def fb_heap_defaults (h : Heap) : Heap :=
  { h with useSegments := true, segStart := 1, segCount := 1, segIndex := 0,
           segBytes := 4194304, segOffset := 0 }

def fb_heap_init_default (h : Heap) : Option Heap :=
  if h.ptr = 0 ∨ h.heapEnd = 0 then fb_heap_set_segment (fb_heap_defaults h) 0
  else some h

def fb_heap_init (h : Heap) (base size : Nat) : Option Heap :=
  if base ≠ 0 ∧ size ≠ 0 then
    if fb_is_segment_addr base = false then none
    else some { h with useSegments := false, ptr := base, heapEnd := (base + size) % U64 }
  else
    some { h with useSegments := true, ptr := 0, heapEnd := 0 }

def fb_heap_init_segments (h : Heap) (start count offset bytes : Nat) : Option Heap :=
  if start = 0 ∨ count = 0 ∨ bytes = 0 then none
  else
    fb_heap_set_segment
      { h with useSegments := true, segStart := start, segCount := count,
               segIndex := 0, segBytes := bytes, segOffset := offset } 0

/-- The `retry:` loop of `fb_malloc`; the fuel argument bounds the number of
segment advances and exceeds it on every reachable state. -/
def fb_malloc_loop : Heap → Nat → Nat → Option (Nat × Heap)
  | _, _, 0 => none
  | h, size, fuel + 1 =>
    if h.heapEnd < (h.ptr + size) % U64 then
      if h.useSegments = true ∧ (h.segIndex + 1) % U32 < h.segCount then
        match fb_heap_set_segment { h with segIndex := (h.segIndex + 1) % U32 }
            ((h.segIndex + 1) % U32) with
        | none => none
        | some h2 => fb_malloc_loop h2 size fuel
      else some (0, h)
    else some (h.ptr, { h with ptr := (h.ptr + size) % U64 })

/-- `fb_malloc`: result address (0 models a NULL return) and updated state. -/
def fb_malloc (h : Heap) (size : Nat) : Option (Nat × Heap) :=
  if size = 0 then some (0, h)
  else
    match fb_heap_init_default h with
    | none => none
    | some h1 => fb_malloc_loop h1 (fb_align_up size 8) (h1.segCount + 2)

/-- The initial values of the allocator's static variables. -/
def fb_initial_heap : Heap :=
  { ptr := 0, heapEnd := 0, segStart := 1, segCount := 1, segIndex := 0,
    segBytes := 4194304, segOffset := 0, useSegments := true }

/-- Run a sequence of `fb_malloc` requests, recording each call's result and
the state after it. -/
def fb_run : Heap → List Nat → Option (List (Nat × Heap))
  | _, [] => some []
  | h, r :: rs =>
    match fb_malloc h r with
    | none => none
    | some (p, h2) =>
      match fb_run h2 rs with
      | none => none
      | some tr => some ((p, h2) :: tr)

/-- The non-null allocations of a run, as (address, rounded size) pairs. -/
def fb_granted : List Nat → List (Nat × Heap) → List (Nat × Nat)
  | r :: rs, x :: tr =>
    (if x.1 ≠ 0 then [(x.1, fb_align_up r 8)] else []) ++ fb_granted rs tr
  | _, _ => []

def fb_final (h : Heap) (tr : List (Nat × Heap)) : Heap :=
  (tr.getLast?).elim h Prod.snd

/-- Low bound of configured segment number `i` (the first segment starts at
its configured offset). -/
def segLo (start offset i : Nat) : Nat :=
  (start + i) * 2 ^ 28 + (if i = 0 then offset else 0)

/-- Exclusive high bound of configured segment number `i`. -/
def segHi (start bytes i : Nat) : Nat :=
  (start + i) * 2 ^ 28 + bytes

/-- Two (address, size) ranges do not overlap. -/
def RangesDisj (p q : Nat × Nat) : Prop :=
  p.1 + p.2 ≤ q.1 ∨ q.1 + q.2 ≤ p.1

instance (p q : Nat × Nat) : Decidable (RangesDisj p q) := by
  unfold RangesDisj
  infer_instance

def sumSizes (gr : List (Nat × Nat)) : Nat := (gr.map Prod.snd).sum

def totalCap (count offset bytes : Nat) : Nat :=
  (bytes - offset) + bytes * (count - 1)

-- sanity checks of the embedding on the concrete scenarios of the spec
example : __addsf3 0x3F800000 0x40000000 = 0x40400000 := by decide

example : __divsf3 0x3F800000 0 = 0x7F800000 := by decide

example :
    fb_heap_init_segments fb_initial_heap 1 2 0 64 =
      some { ptr := 0x10000000, heapEnd := 0x10000040, segStart := 1, segCount := 2,
             segIndex := 0, segBytes := 64, segOffset := 0, useSegments := true } := by
  decide

/-! ### Helper lemmas -/

lemma f32_is_nan_iff (a : Nat) : f32_is_nan a = true ↔ (f32_exp a = 0xFF ∧ f32_frac a ≠ 0) := by
  simp [f32_is_nan]

lemma f64_is_nan_iff (a : Nat) : f64_is_nan a = true ↔ (f64_exp a = 0x7FF ∧ f64_frac a ≠ 0) := by
  simp [f64_is_nan]

lemma f32_cmp_nan (ua ub : Nat) (h : f32_is_nan ua = true ∨ f32_is_nan ub = true) :
    f32_cmp ua ub = (0, true) := by
  rcases h with h | h <;> simp [f32_cmp, h]

lemma f64_cmp_nan (ua ub : Nat) (h : f64_is_nan ua = true ∨ f64_is_nan ub = true) :
    f64_cmp ua ub = (0, true) := by
  rcases h with h | h <;> simp [f64_cmp, h]

lemma f32_mag_zero_exp (ua : Nat) (h : ua &&& 0x7FFFFFFF = 0) : f32_exp ua = 0 := by
  rw [show (0x7FFFFFFF : Nat) = 2 ^ 31 - 1 by norm_num, Nat.and_pow_two_sub_one_eq_mod] at h
  unfold f32_exp
  rw [show (0xFF : Nat) = 2 ^ 8 - 1 by norm_num, Nat.and_pow_two_sub_one_eq_mod,
      Nat.shiftRight_eq_div_pow]
  norm_num at h ⊢
  omega

lemma f64_mag_zero_exp (ua : Nat) (h : ua &&& 0x7FFFFFFFFFFFFFFF = 0) : f64_exp ua = 0 := by
  rw [show (0x7FFFFFFFFFFFFFFF : Nat) = 2 ^ 63 - 1 by norm_num,
      Nat.and_pow_two_sub_one_eq_mod] at h
  unfold f64_exp
  rw [show (0x7FF : Nat) = 2 ^ 11 - 1 by norm_num, Nat.and_pow_two_sub_one_eq_mod,
      Nat.shiftRight_eq_div_pow]
  norm_num at h ⊢
  omega

/-! ### C9: comparisons on NaN operands -/

/-- C9: whenever either operand's bit pattern is a NaN, the unordered
predicate reports 1, greater-than and greater-or-equal report the false
sentinel -1, less-than and less-or-equal report the sentinel 1, equality
reports the nonzero value 1 (not equal), and inequality reports the nonzero
value 1 (true), on both precision tracks. -/
theorem c9_nan_comparisons :
    (∀ ua ub : Nat, f32_is_nan ua = true ∨ f32_is_nan ub = true →
      __unordsf2 ua ub = 1 ∧ __gtsf2 ua ub = -1 ∧ __gesf2 ua ub = -1 ∧
        __ltsf2 ua ub = 1 ∧ __lesf2 ua ub = 1 ∧ __eqsf2 ua ub = 1 ∧ __nesf2 ua ub = 1) ∧
    (∀ ua ub : Nat, f64_is_nan ua = true ∨ f64_is_nan ub = true →
      __unorddf2 ua ub = 1 ∧ __gtdf2 ua ub = -1 ∧ __gedf2 ua ub = -1 ∧
        __ltdf2 ua ub = 1 ∧ __ledf2 ua ub = 1 ∧ __eqdf2 ua ub = 1 ∧ __nedf2 ua ub = 1) := by
  constructor
  · intro ua ub h
    have hc := f32_cmp_nan ua ub h
    refine ⟨?_, ?_, ?_, ?_, ?_, ?_, ?_⟩
    · unfold __unordsf2
      rw [if_pos]
      rcases h with h | h
      · exact Or.inl ((f32_is_nan_iff ua).mp h)
      · exact Or.inr ((f32_is_nan_iff ub).mp h)
    all_goals simp [__gtsf2, __gesf2, __ltsf2, __lesf2, __eqsf2, __nesf2, hc]
  · intro ua ub h
    have hc := f64_cmp_nan ua ub h
    refine ⟨?_, ?_, ?_, ?_, ?_, ?_, ?_⟩
    · unfold __unorddf2
      rw [if_pos]
      rcases h with h | h
      · exact Or.inl ((f64_is_nan_iff ua).mp h)
      · exact Or.inr ((f64_is_nan_iff ub).mp h)
    all_goals simp [__gtdf2, __gedf2, __ltdf2, __ledf2, __eqdf2, __nedf2, hc]

/-- Witness for C9 at a concrete NaN operand pair. -/
theorem c9_nan_comparisons_witness :
    __unordsf2 0x7FC00000 0 = 1 ∧ __gtsf2 0x7FC00000 0 = -1 ∧ __ltsf2 0x7FC00000 0 = 1 ∧
      __unorddf2 0x7FF8000000000000 0 = 1 ∧ __eqdf2 0x7FF8000000000000 0 = 1 := by
  have h32 := c9_nan_comparisons.1 0x7FC00000 0 (Or.inl (by decide))
  have h64 := c9_nan_comparisons.2 0x7FF8000000000000 0 (Or.inl (by decide))
  exact ⟨h32.1, h32.2.1, h32.2.2.2.1, h64.1, h64.2.2.2.2.2.1⟩

/-! ### C10: unsigned conversions on negative inputs -/

/-- C10: every input bit pattern with the sign bit set makes the unsigned
float-to-integer conversions return 0. -/
theorem c10_fixuns_sign_bit_zero :
    (∀ ua : Nat, (ua >>> 31) &&& 1 = 1 → __fixunssfsi ua = 0) ∧
    (∀ ua : Nat, (ua >>> 63) &&& 1 = 1 → __fixunsdfsi ua = 0 ∧ __fixunsdfdi ua = 0) := by
  constructor
  · intro ua h
    unfold __fixunssfsi
    rw [if_pos]
    unfold f32_sign
    omega
  · intro ua h
    constructor
    · unfold __fixunsdfsi
      rw [if_pos]
      unfold f64_sign
      omega
    · unfold __fixunsdfdi
      rw [if_pos]
      unfold f64_sign
      omega

/-- Witness for C10 at concrete negative inputs (-1.5f and -1.5). -/
theorem c10_fixuns_sign_bit_zero_witness :
    __fixunssfsi 0xBFC00000 = 0 ∧ __fixunsdfsi 0xBFF8000000000000 = 0 ∧
      __fixunsdfdi 0xBFF8000000000000 = 0 := by
  have h32 := c10_fixuns_sign_bit_zero.1 0xBFC00000 (by decide)
  have h64 := c10_fixuns_sign_bit_zero.2 0xBFF8000000000000 (by decide)
  exact ⟨h32, h64.1, h64.2⟩

/-! ### C7: multiplication special cases -/

/-- C7: in `__mulsf3` and `__muldf3`, a zero-magnitude operand yields a zero
whose sign is the XOR of the operand signs; otherwise a maximal exponent
field on either operand (infinity or NaN) yields an infinity whose sign is
the XOR of the operand signs, with no NaN payload in the result. -/
theorem c7_mul_special_cases :
    (∀ ua ub : Nat,
      (ua &&& 0x7FFFFFFF = 0 ∨ ub &&& 0x7FFFFFFF = 0 →
        __mulsf3 ua ub = (f32_sign ua ^^^ f32_sign ub) <<< 31) ∧
      (ua &&& 0x7FFFFFFF ≠ 0 → ub &&& 0x7FFFFFFF ≠ 0 →
        f32_exp ua = 255 ∨ f32_exp ub = 255 →
        __mulsf3 ua ub = ((f32_sign ua ^^^ f32_sign ub) <<< 31) ||| 0x7F800000)) ∧
    (∀ ua ub : Nat,
      (ua &&& 0x7FFFFFFFFFFFFFFF = 0 ∨ ub &&& 0x7FFFFFFFFFFFFFFF = 0 →
        __muldf3 ua ub = (f64_sign ua ^^^ f64_sign ub) <<< 63) ∧
      (ua &&& 0x7FFFFFFFFFFFFFFF ≠ 0 → ub &&& 0x7FFFFFFFFFFFFFFF ≠ 0 →
        f64_exp ua = 0x7FF ∨ f64_exp ub = 0x7FF →
        __muldf3 ua ub = ((f64_sign ua ^^^ f64_sign ub) <<< 63) ||| (0x7FF <<< 52))) := by
  constructor
  · intro ua ub
    constructor
    · intro h
      unfold __mulsf3
      rw [if_pos h]
    · intro h1 h2 h3
      unfold __mulsf3
      rw [if_neg (not_or.mpr ⟨h1, h2⟩), if_pos h3]
  · intro ua ub
    constructor
    · intro h
      unfold __muldf3
      rw [if_pos h]
    · intro h1 h2 h3
      unfold __muldf3
      rw [if_neg (not_or.mpr ⟨h1, h2⟩), if_pos h3]

/-- Witness for C7: 0 * -inf is -0, 2 * NaN is +inf (payload dropped). -/
theorem c7_mul_special_cases_witness :
    __mulsf3 0 0xFF800000 = 0x80000000 ∧ __mulsf3 0x40000000 0x7FC00001 = 0x7F800000 ∧
      __muldf3 0 0xFFF0000000000000 = 0x8000000000000000 ∧
      __muldf3 0x4000000000000000 0x7FF8000000000001 = 0x7FF0000000000000 := by
  have a1 := (c7_mul_special_cases.1 0 0xFF800000).1 (Or.inl (by decide))
  have a2 := (c7_mul_special_cases.1 0x40000000 0x7FC00001).2 (by decide) (by decide)
    (Or.inr (by decide))
  have a3 := (c7_mul_special_cases.2 0 0xFFF0000000000000).1 (Or.inl (by decide))
  have a4 := (c7_mul_special_cases.2 0x4000000000000000 0x7FF8000000000001).2 (by decide)
    (by decide) (Or.inr (by decide))
  exact ⟨a1.trans (by decide), a2.trans (by decide), a3.trans (by decide), a4.trans (by decide)⟩

/-! ### C8: division special cases -/

/-- C8 counterexample: at dividend and divisor both zero-magnitude, the
claim's dividend-zero clause predicts a signed zero (bit pattern 0), but the
code's divisor-zero test fires first and yields positive infinity. -/
theorem c8_counterexample :
    __divsf3 0 0 = 0x7F800000 ∧ ((f32_sign 0 ^^^ f32_sign 0) <<< 31 : Nat) = 0 ∧
      (0x7F800000 : Nat) ≠ 0 ∧ __divdf3 0 0 = 0x7FF0000000000000 := by
  decide

/-- C8 as amended: a zero-magnitude divisor yields a correctly-signed
infinity (whatever the dividend); a zero-magnitude dividend with a nonzero
divisor yields a correctly-signed zero; and div_f32(1.0, 0.0) is positive
infinity 0x7F800000. -/
theorem c8_div_zero_cases :
    (∀ ua ub : Nat, ub &&& 0x7FFFFFFF = 0 →
      __divsf3 ua ub = ((f32_sign ua ^^^ f32_sign ub) <<< 31) ||| 0x7F800000) ∧
    (∀ ua ub : Nat, ua &&& 0x7FFFFFFF = 0 → ub &&& 0x7FFFFFFF ≠ 0 →
      __divsf3 ua ub = (f32_sign ua ^^^ f32_sign ub) <<< 31) ∧
    __divsf3 0x3F800000 0 = 0x7F800000 ∧
    (∀ ua ub : Nat, ub &&& 0x7FFFFFFFFFFFFFFF = 0 →
      __divdf3 ua ub = ((f64_sign ua ^^^ f64_sign ub) <<< 63) ||| (0x7FF <<< 52)) ∧
    (∀ ua ub : Nat, ua &&& 0x7FFFFFFFFFFFFFFF = 0 → ub &&& 0x7FFFFFFFFFFFFFFF ≠ 0 →
      __divdf3 ua ub = (f64_sign ua ^^^ f64_sign ub) <<< 63) := by
  refine ⟨?_, ?_, by decide, ?_, ?_⟩
  · intro ua ub h
    unfold __divsf3
    rw [if_pos h]
  · intro ua ub h1 h2
    unfold __divsf3
    rw [if_neg h2, if_pos h1]
  · intro ua ub h
    unfold __divdf3
    rw [if_pos h]
  · intro ua ub h1 h2
    unfold __divdf3
    rw [if_neg h2, if_pos h1]

/-- Witness for C8: -1.0 / 0.0 is -inf, 0.0 / 2.0 is +0. -/
theorem c8_div_zero_cases_witness :
    __divsf3 0xBF800000 0 = 0xFF800000 ∧ __divsf3 0 0x40000000 = 0 ∧
      __divdf3 0xBFF0000000000000 0 = 0xFFF0000000000000 ∧
      __divdf3 0 0x4000000000000000 = 0 := by
  have a1 := c8_div_zero_cases.1 0xBF800000 0 (by decide)
  have a2 := c8_div_zero_cases.2.1 0 0x40000000 (by decide) (by decide)
  have a3 := c8_div_zero_cases.2.2.2.1 0xBFF0000000000000 0 (by decide)
  have a4 := c8_div_zero_cases.2.2.2.2 0 0x4000000000000000 (by decide) (by decide)
  exact ⟨a1.trans (by decide), a2.trans (by decide), a3.trans (by decide), a4.trans (by decide)⟩

/-! ### C3: additive identity and negation involution -/

/-- C3 counterexample: negative zero is finite and non-NaN, yet adding
positive zero to it does not return it bit-exact; the zero-magnitude
short-circuit returns the second operand, positive zero, instead. -/
theorem c3_counterexample :
    __addsf3 0x80000000 0 = 0 ∧ (0x80000000 : Nat) ≠ 0 ∧
      __adddf3 0x8000000000000000 0 = 0 ∧ (0x8000000000000000 : Nat) ≠ 0 := by
  decide

/-- C3 as amended: for every finite non-NaN value other than negative zero,
adding positive zero returns the value bit-exact, and negation is a
bit-exact involution on every pattern. -/
theorem c3_add_zero_neg_involution :
    (∀ v : Nat, v < 2 ^ 32 → f32_exp v ≠ 0xFF → v ≠ 0x80000000 → __addsf3 v 0 = v) ∧
    (∀ v : Nat, __negsf2 (__negsf2 v) = v) ∧
    (∀ v : Nat, v < 2 ^ 64 → f64_exp v ≠ 0x7FF → v ≠ 0x8000000000000000 → __adddf3 v 0 = v) ∧
    (∀ v : Nat, __negdf2 (__negdf2 v) = v) := by
  refine ⟨?_, ?_, ?_, ?_⟩
  · intro v hv _ hz
    by_cases hm : v &&& 0x7FFFFFFF = 0
    · have hmod := hm
      rw [show (0x7FFFFFFF : Nat) = 2 ^ 31 - 1 by norm_num,
          Nat.and_pow_two_sub_one_eq_mod] at hmod
      have : v = 0 := by
        norm_num at hmod hv hz ⊢
        omega
      subst this
      decide
    · unfold __addsf3
      rw [if_neg hm, if_pos (by decide)]
  · intro v
    unfold __negsf2
    exact Nat.xor_cancel_right _ _
  · intro v hv _ hz
    by_cases hm : v &&& 0x7FFFFFFFFFFFFFFF = 0
    · have hmod := hm
      rw [show (0x7FFFFFFFFFFFFFFF : Nat) = 2 ^ 63 - 1 by norm_num,
          Nat.and_pow_two_sub_one_eq_mod] at hmod
      have : v = 0 := by
        norm_num at hmod hv hz ⊢
        omega
      subst this
      decide
    · unfold __adddf3
      rw [if_neg hm, if_pos (by decide)]
  · intro v
    unfold __negdf2
    exact Nat.xor_cancel_right _ _

/-- Witness for C3 at 1.0f and 1.0. -/
theorem c3_add_zero_neg_involution_witness :
    __addsf3 0x3F800000 0 = 0x3F800000 ∧ __negsf2 (__negsf2 7) = 7 ∧
      __adddf3 0x3FF0000000000000 0 = 0x3FF0000000000000 := by
  refine ⟨c3_add_zero_neg_involution.1 0x3F800000 (by norm_num) (by decide) (by norm_num),
    c3_add_zero_neg_involution.2.1 7,
    c3_add_zero_neg_involution.2.2.1 0x3FF0000000000000 (by norm_num) (by decide) (by norm_num)⟩

/-! ### C5: fb_heap_init base validation -/

/-- C5 counterexample: the base `16 <<< 28` decodes to segment identifier 16
under the address encoding, which is nonzero, yet `fb_heap_init` takes the
fatal path because `fb_is_segment_addr` keeps only the low 4 bits of the
decoded identifier. -/
theorem c5_counterexample :
    ((16 <<< 28 : Nat) >>> 28 = 16 ∧ (16 : Nat) ≠ 0) ∧
      fb_heap_init fb_initial_heap (16 <<< 28) 8 = none := by
  decide

/-- C5 as amended: with a non-null base and nonzero size, `fb_heap_init` is
fatal exactly when the low 4 bits of the decoded segment identifier
`base >>> 28` are zero; every base whose decoded identifier has nonzero low
4 bits is accepted and configures the heap range from `base` to
`base + size` (reduced modulo 2^64, the pointer width). -/
theorem c5_heap_init_validation (h : Heap) (base size : Nat)
    (hb : base ≠ 0) (hs : size ≠ 0) :
    (fb_heap_init h base size = none ↔ (base >>> 28) &&& 0x0F = 0) ∧
    ((base >>> 28) &&& 0x0F ≠ 0 →
      fb_heap_init h base size =
        some { h with useSegments := false, ptr := base, heapEnd := (base + size) % U64 }) := by
  constructor
  · by_cases hd : (base >>> 28) &&& 0x0F = 0
    · simp [fb_heap_init, fb_is_segment_addr, hb, hs, hd]
    · simp [fb_heap_init, fb_is_segment_addr, hb, hs, hd]
  · intro hd
    simp [fb_heap_init, fb_is_segment_addr, hb, hs, hd]

/-- Witness for C5 at a segment-1 base. -/
theorem c5_heap_init_validation_witness :
    (fb_heap_init fb_initial_heap (1 <<< 28) 8 = none ↔
      ((1 <<< 28 : Nat) >>> 28) &&& 0x0F = 0) ∧
    (((1 <<< 28 : Nat) >>> 28) &&& 0x0F ≠ 0 →
      fb_heap_init fb_initial_heap (1 <<< 28) 8 =
        some { fb_initial_heap with
               useSegments := false
               ptr := (1 <<< 28 : Nat)
               heapEnd := ((1 <<< 28 : Nat) + 8) % U64 }) :=
  c5_heap_init_validation fb_initial_heap (1 <<< 28) 8 (by decide) (by decide)

/-! ### C6: int32 to float conversions -/

/-- C6: evaluation of the conversion code at the failing inputs.
`__floatsidf` zero-extends the 32-bit argument to 64 bits *before* the
64-bit two's-complement negation, so for the input -1 the mantissa fed to
`u64_to_f64_bits` is 0xFFFFFFFF00000001 and the produced double represents
-(2^64 - 2^32), not -1; the positive path (input 5) is exact.  Separately,
`__floatsisf` keeps only 24 mantissa bits, so the int32 value 2^24 + 1
converts to a float representing 2^24: the 32-bit-int to 32-bit-float path
does need rounding, contrary to the claim. -/
theorem c6_floatsi_conversion_defects :
    __floatsidf (-1) = 0xC3EFFFFFFFE00000 ∧
    f64toQ (__floatsidf (-1)) = -(18446744069414584320 : ℚ) ∧
    -(18446744069414584320 : ℚ) ≠ (-1 : ℚ) ∧
    f64toQ (__floatsidf 5) = (5 : ℚ) ∧
    f32toQ (__floatsisf 16777217) = (16777216 : ℚ) ∧
    (16777216 : ℚ) ≠ (16777217 : ℚ) := by
  have hb1 : __floatsidf (-1) = 0xC3EFFFFFFFE00000 := by decide
  have hb2 : __floatsidf 5 = 0x4014000000000000 := by decide
  have hb3 : __floatsisf 16777217 = 0x4B800000 := by decide
  refine ⟨hb1, ?_, by norm_num, ?_, ?_, by norm_num⟩
  · rw [hb1]
    unfold f64toQ
    rw [if_neg (by decide), if_pos (by decide),
        show f64_frac 0xC3EFFFFFFFE00000 = 0xFFFFFFFE00000 by decide,
        show f64_exp 0xC3EFFFFFFFE00000 = 1086 by decide]
    norm_num
  · rw [hb2]
    unfold f64toQ
    rw [if_neg (by decide), if_neg (by decide),
        show f64_frac 0x4014000000000000 = 0x4000000000000 by decide,
        show f64_exp 0x4014000000000000 = 1025 by decide]
    norm_num
  · rw [hb3]
    unfold f32toQ
    rw [if_neg (by decide), if_neg (by decide),
        show f32_frac 0x4B800000 = 0 by decide,
        show f32_exp 0x4B800000 = 151 by decide]
    norm_num

/-! ### C2: commutativity of add and mul -/

lemma f32_add_finish_zero (sr : Nat) (er : Int) : f32_add_finish sr 0 er = 0 := by
  unfold f32_add_finish
  simp

lemma f64_add_finish_zero (sr : Nat) (er : Int) : f64_add_finish sr 0 er = 0 := by
  unfold f64_add_finish
  simp

lemma f32_add_core_comm (sa fa sb fb : Nat) (er : Int) :
    f32_add_core sa fa sb fb er = f32_add_core sb fb sa fa er := by
  unfold f32_add_core
  by_cases hs : sa = sb
  · rw [if_pos hs, if_pos hs.symm, hs, Nat.add_comm]
  · rw [if_neg hs, if_neg (Ne.symm hs)]
    rcases Nat.lt_trichotomy fa fb with h | h | h
    · rw [if_neg (by omega), if_pos (by omega)]
    · rw [if_pos (by omega), if_pos (by omega), h, Nat.sub_self,
          f32_add_finish_zero, f32_add_finish_zero]
    · rw [if_pos (by omega), if_neg (by omega)]

lemma f64_add_core_comm (sa fa sb fb : Nat) (er : Int) :
    f64_add_core sa fa sb fb er = f64_add_core sb fb sa fa er := by
  unfold f64_add_core
  by_cases hs : sa = sb
  · rw [if_pos hs, if_pos hs.symm, hs, Nat.add_comm]
  · rw [if_neg hs, if_neg (Ne.symm hs)]
    rcases Nat.lt_trichotomy fa fb with h | h | h
    · rw [if_neg (by omega), if_pos (by omega)]
    · rw [if_pos (by omega), if_pos (by omega), h, Nat.sub_self,
          f64_add_finish_zero, f64_add_finish_zero]
    · rw [if_pos (by omega), if_neg (by omega)]

lemma addsf3_comm_aux (ua ub : Nat) (hz : ¬(f32_exp ua = 0 ∧ f32_exp ub = 0 ∧ ua ≠ ub)) :
    __addsf3 ua ub = __addsf3 ub ua := by
  by_cases hz2 : f32_exp ua = 0 ∧ f32_exp ub = 0
  · have heq : ua = ub := by
      by_contra hne
      exact hz ⟨hz2.1, hz2.2, hne⟩
    rw [heq]
  by_cases hA : ua &&& 0x7FFFFFFF = 0 <;> by_cases hB : ub &&& 0x7FFFFFFF = 0
  · exact absurd ⟨f32_mag_zero_exp ua hA, f32_mag_zero_exp ub hB⟩ hz2
  · unfold __addsf3
    rw [if_pos hA, if_neg hB, if_pos hA]
  · unfold __addsf3
    rw [if_neg hA, if_pos hB, if_pos hB]
  unfold __addsf3
  rw [if_neg hA, if_neg hB, if_neg hB, if_neg hA]
  by_cases hea : f32_exp ua = 0
  · have heb : f32_exp ub ≠ 0 := fun h => hz2 ⟨hea, h⟩
    rw [if_pos hea, if_neg heb, if_pos hea]
  by_cases heb : f32_exp ub = 0
  · rw [if_neg hea, if_pos heb, if_pos heb]
  rw [if_neg hea, if_neg heb, if_neg heb, if_neg hea]
  rcases Nat.lt_trichotomy (f32_exp ua) (f32_exp ub) with hlt | heq2 | hgt
  · rw [if_neg (by omega), if_pos hlt, if_pos hlt]
    by_cases hd : 24 < f32_exp ub - f32_exp ua
    · rw [if_pos hd, if_pos hd]
    · rw [if_neg hd, if_neg hd]
      exact f32_add_core_comm _ _ _ _ _
  · rw [if_neg (by omega), if_neg (by omega), if_neg (by omega), if_neg (by omega), heq2]
    exact f32_add_core_comm _ _ _ _ _
  · rw [if_pos hgt, if_neg (show ¬ f32_exp ua < f32_exp ub by omega), if_pos hgt]
    by_cases hd : 24 < f32_exp ua - f32_exp ub
    · rw [if_pos hd, if_pos hd]
    · rw [if_neg hd, if_neg hd]
      exact f32_add_core_comm _ _ _ _ _

lemma adddf3_comm_aux (ua ub : Nat) (hna : f64_exp ua ≠ 0x7FF) (hnb : f64_exp ub ≠ 0x7FF)
    (hz : ¬(f64_exp ua = 0 ∧ f64_exp ub = 0 ∧ ua ≠ ub)) :
    __adddf3 ua ub = __adddf3 ub ua := by
  by_cases hz2 : f64_exp ua = 0 ∧ f64_exp ub = 0
  · have heq : ua = ub := by
      by_contra hne
      exact hz ⟨hz2.1, hz2.2, hne⟩
    rw [heq]
  by_cases hA : ua &&& 0x7FFFFFFFFFFFFFFF = 0 <;>
    by_cases hB : ub &&& 0x7FFFFFFFFFFFFFFF = 0
  · exact absurd ⟨f64_mag_zero_exp ua hA, f64_mag_zero_exp ub hB⟩ hz2
  · unfold __adddf3
    rw [if_pos hA, if_neg hB, if_pos hA]
  · unfold __adddf3
    rw [if_neg hA, if_pos hB, if_pos hB]
  unfold __adddf3
  rw [if_neg hA, if_neg hB, if_neg hB, if_neg hA]
  by_cases hea : f64_exp ua = 0
  · have heb : f64_exp ub ≠ 0 := fun h => hz2 ⟨hea, h⟩
    rw [if_pos hea, if_neg heb, if_pos hea]
  by_cases heb : f64_exp ub = 0
  · rw [if_neg hea, if_pos heb, if_pos heb]
  rw [if_neg hea, if_neg heb, if_neg heb, if_neg hea,
      if_neg hna, if_neg hnb, if_neg hnb, if_neg hna]
  rcases Nat.lt_trichotomy (f64_exp ua) (f64_exp ub) with hlt | heq2 | hgt
  · rw [if_neg (by omega), if_pos hlt, if_pos hlt]
    by_cases hd : 60 < f64_exp ub - f64_exp ua
    · rw [if_pos hd, if_pos hd]
    · rw [if_neg hd, if_neg hd]
      exact f64_add_core_comm _ _ _ _ _
  · rw [if_neg (by omega), if_neg (by omega), if_neg (by omega), if_neg (by omega), heq2]
    exact f64_add_core_comm _ _ _ _ _
  · rw [if_pos hgt, if_neg (show ¬ f64_exp ua < f64_exp ub by omega), if_pos hgt]
    by_cases hd : 60 < f64_exp ua - f64_exp ub
    · rw [if_pos hd, if_pos hd]
    · rw [if_neg hd, if_neg hd]
      exact f64_add_core_comm _ _ _ _ _

lemma mul_u64_mid_comm (p1 p2 p0 : Nat) : mul_u64_mid p1 p2 p0 = mul_u64_mid p2 p1 p0 := by
  unfold mul_u64_mid
  omega

lemma mul_u64_comm (a b : Nat) : mul_u64 a b = mul_u64 b a := by
  unfold mul_u64
  rw [Nat.mul_comm (a &&& 0xFFFFFFFF) (b &&& 0xFFFFFFFF),
      Nat.mul_comm (a >>> 32) (b >>> 32),
      Nat.mul_comm (a &&& 0xFFFFFFFF) (b >>> 32),
      Nat.mul_comm (a >>> 32) (b &&& 0xFFFFFFFF)]
  rw [mul_u64_mid_comm ((b >>> 32) * (a &&& 0xFFFFFFFF)) ((b &&& 0xFFFFFFFF) * (a >>> 32))]
  simp only [Prod.mk.injEq, U64]
  exact ⟨by omega, trivial⟩

lemma mulsf3_comm_aux (ua ub : Nat) : __mulsf3 ua ub = __mulsf3 ub ua := by
  unfold __mulsf3
  by_cases h0 : ua &&& 0x7FFFFFFF = 0 ∨ ub &&& 0x7FFFFFFF = 0
  · rw [if_pos h0,
        if_pos (show ub &&& 0x7FFFFFFF = 0 ∨ ua &&& 0x7FFFFFFF = 0 from h0.symm),
        Nat.xor_comm]
  · rw [if_neg h0,
        if_neg (show ¬(ub &&& 0x7FFFFFFF = 0 ∨ ua &&& 0x7FFFFFFF = 0) from
          fun hc => h0 hc.symm)]
    by_cases h1 : f32_exp ua = 255 ∨ f32_exp ub = 255
    · rw [if_pos h1,
          if_pos (show f32_exp ub = 255 ∨ f32_exp ua = 255 from h1.symm),
          Nat.xor_comm]
    · rw [if_neg h1,
          if_neg (show ¬(f32_exp ub = 255 ∨ f32_exp ua = 255) from fun hc => h1 hc.symm),
          Nat.xor_comm (f32_sign ua),
          Nat.mul_comm (f32_frac ua ||| 0x800000),
          add_comm ((f32_exp ua : Int))]

lemma muldf3_comm_aux (ua ub : Nat) : __muldf3 ua ub = __muldf3 ub ua := by
  unfold __muldf3
  by_cases h0 : ua &&& 0x7FFFFFFFFFFFFFFF = 0 ∨ ub &&& 0x7FFFFFFFFFFFFFFF = 0
  · rw [if_pos h0,
        if_pos (show ub &&& 0x7FFFFFFFFFFFFFFF = 0 ∨ ua &&& 0x7FFFFFFFFFFFFFFF = 0 from
          h0.symm),
        Nat.xor_comm]
  · rw [if_neg h0,
        if_neg (show ¬(ub &&& 0x7FFFFFFFFFFFFFFF = 0 ∨ ua &&& 0x7FFFFFFFFFFFFFFF = 0) from
          fun hc => h0 hc.symm)]
    by_cases h1 : f64_exp ua = 0x7FF ∨ f64_exp ub = 0x7FF
    · rw [if_pos h1,
          if_pos (show f64_exp ub = 0x7FF ∨ f64_exp ua = 0x7FF from h1.symm),
          Nat.xor_comm]
    · rw [if_neg h1,
          if_neg (show ¬(f64_exp ub = 0x7FF ∨ f64_exp ua = 0x7FF) from fun hc => h1 hc.symm),
          Nat.xor_comm (f64_sign ua),
          mul_u64_comm (f64_frac ua ||| 0x10000000000000),
          add_comm ((f64_exp ua : Int))]

/-- C2 counterexample: the pairs (+0, -0) and (subnormal 1, subnormal 2) are
all finite (zero exponent field), yet `__addsf3` is not bit-exact
commutative on them: the zero-magnitude and zero-exponent short-circuits
return whichever operand sits in the second position. -/
theorem c2_counterexample :
    (f32_exp 0 = 0 ∧ f32_exp 0x80000000 = 0 ∧ f32_exp 1 = 0 ∧ f32_exp 2 = 0) ∧
    (__addsf3 0 0x80000000 = 0x80000000 ∧ __addsf3 0x80000000 0 = 0) ∧
    (__addsf3 1 2 = 2 ∧ __addsf3 2 1 = 1) ∧
    (__adddf3 0 0x8000000000000000 = 0x8000000000000000 ∧
      __adddf3 0x8000000000000000 0 = 0) := by
  decide

/-- C2 as amended: addition is bit-exact commutative for all finite operand
pairs except those in which both operands have a zero exponent field (both
zero or subnormal) and distinct bit patterns; multiplication is bit-exact
commutative for all operand pairs, on both precision tracks. -/
theorem c2_commutativity :
    (∀ ua ub : Nat, f32_exp ua ≠ 0xFF → f32_exp ub ≠ 0xFF →
      ¬(f32_exp ua = 0 ∧ f32_exp ub = 0 ∧ ua ≠ ub) → __addsf3 ua ub = __addsf3 ub ua) ∧
    (∀ ua ub : Nat, __mulsf3 ua ub = __mulsf3 ub ua) ∧
    (∀ ua ub : Nat, f64_exp ua ≠ 0x7FF → f64_exp ub ≠ 0x7FF →
      ¬(f64_exp ua = 0 ∧ f64_exp ub = 0 ∧ ua ≠ ub) → __adddf3 ua ub = __adddf3 ub ua) ∧
    (∀ ua ub : Nat, __muldf3 ua ub = __muldf3 ub ua) :=
  ⟨fun ua ub _ _ hz => addsf3_comm_aux ua ub hz,
   mulsf3_comm_aux,
   adddf3_comm_aux,
   muldf3_comm_aux⟩

/-- Witness for C2 at 1.0f + 2.0f and 1.0 + 2.0. -/
theorem c2_commutativity_witness :
    __addsf3 0x3F800000 0x40000000 = __addsf3 0x40000000 0x3F800000 ∧
      __mulsf3 0x3F800000 0x40000000 = __mulsf3 0x40000000 0x3F800000 ∧
      __adddf3 0x3FF0000000000000 0x4000000000000000 =
        __adddf3 0x4000000000000000 0x3FF0000000000000 := by
  refine ⟨c2_commutativity.1 0x3F800000 0x40000000 (by decide) (by decide) (by decide),
    c2_commutativity.2.1 0x3F800000 0x40000000,
    c2_commutativity.2.2.1 0x3FF0000000000000 0x4000000000000000 (by decide) (by decide)
      (by decide)⟩

/-! ### C1 and C4: allocator counterexamples -/

/-- Observation helper: configure with `fb_heap_init_segments`, run the
requests, and report the granted (address, rounded size) pairs. -/
def fb_run_granted (s c o b : Nat) (reqs : List Nat) : Option (Option (List (Nat × Nat))) :=
  (fb_heap_init_segments fb_initial_heap s c o b).map (fun h0 =>
    (fb_run h0 reqs).map (fb_granted reqs))

/-- Observation helper: configure, run, and report per call the returned
address together with the segment index and cursor after the call. -/
def fb_run_marks (s c o b : Nat) (reqs : List Nat) :
    Option (Option (List (Nat × Nat × Nat))) :=
  (fb_heap_init_segments fb_initial_heap s c o b).map (fun h0 =>
    (fb_run h0 reqs).map (fun tr => tr.map (fun x => (x.1, x.2.segIndex, x.2.ptr))))

/-- C1 counterexample, three concrete configurations accepted without a
diagnostic by `fb_heap_init_segments`:
(1) with 2^29 bytes per segment, the 28-bit offset field of the address
encoding makes consecutive segment ranges overlap, and the two returned
allocations overlap;
(2) with a 64-byte single segment, a request of 2^64 - 8 bytes makes the
cursor comparison wrap: the call succeeds, the cursor moves backwards
within the same segment (monotonicity broken: 268435464 < 268435472 at
segment index 0), and the third allocation overlaps the first;
(3) with starting segment 2^32 - 1 and two segments, the 32-bit segment
counter wraps to segment 0 at base address 0, the next call lazily resets
the heap to the compiled-in defaults, and the returned 8-byte allocation at
268435456 lies inside no configured segment. -/
theorem c1_counterexample :
    (fb_run_granted 1 2 0 536870912 [536870912, 8] =
        some (some [(268435456, 536870912), (536870912, 8)]) ∧
      ¬ RangesDisj (268435456, 536870912) (536870912, 8)) ∧
    (fb_run_granted 1 1 0 64 [16, 18446744073709551608, 8] =
        some (some [(268435456, 16), (268435472, 18446744073709551608), (268435464, 8)]) ∧
      ¬ RangesDisj (268435456, 16) (268435464, 8) ∧
      fb_run_marks 1 1 0 64 [16, 18446744073709551608, 8] =
        some (some [(268435456, 0, 268435472), (268435472, 0, 268435464),
          (268435464, 0, 268435472)]) ∧
      268435464 < 268435472) ∧
    (fb_run_granted 4294967295 2 0 64 [128, 8] = some (some [(268435456, 8)]) ∧
      ∀ i, i < 2 →
        ¬(segLo 4294967295 0 i ≤ 268435456 ∧ 268435456 + 8 ≤ segHi 4294967295 64 i)) := by
  refine ⟨⟨by decide, by decide⟩, ⟨by decide, by decide, by decide, by decide⟩,
    ⟨by decide, by decide⟩⟩

/-- C4 counterexample:
(a) in a 2-segment 64-byte heap (capacity 128), a first request of 4096
bytes is denied, so the total requested bytes 4096 (already 8-byte aligned)
exceed the capacity, yet the next request of 8 bytes succeeds at 536870912
(the claim demands NULL);
(b) in a 1-segment 64-byte heap filled exactly (granted bytes = capacity
64), a subsequent request of 2^64 - 8 bytes wraps the cursor comparison and
returns the non-null address 268435520 instead of NULL. -/
theorem c4_counterexample :
    (totalCap 2 0 64 = 128 ∧ fb_align_up 4096 8 = 4096 ∧
      fb_run_marks 1 2 0 64 [4096, 8] =
        some (some [(0, 1, 536870912), (536870912, 1, 536870920)]) ∧
      (536870912 : Nat) ≠ 0) ∧
    (totalCap 1 0 64 = 64 ∧
      fb_run_granted 1 1 0 64 [64, 18446744073709551608] =
        some (some [(268435456, 64), (268435520, 18446744073709551608)]) ∧
      (268435520 : Nat) ≠ 0) := by
  refine ⟨⟨by decide, by decide, by decide, by decide⟩, by decide, by decide, by decide⟩

/-! ### C1 and C4: allocator invariant development

The amended claims hold for configurations whose per-segment size fits the
28-bit offset field of the address encoding (`bytes ≤ 2^28`), whose segment
identifiers do not wrap the 32-bit counter (`start + count ≤ 2^32`), and
for request sizes small enough not to wrap the 64-bit cursor arithmetic
(`r ≤ 2^63`); the counterexamples above show each restriction is necessary. -/

/-- Side conditions on a segment-range configuration. -/
structure GoodCfg (start count offset bytes : Nat) : Prop where
  start_pos : 0 < start
  count_pos : 0 < count
  no_wrap : start + count ≤ 2 ^ 32
  bytes_pos : 0 < bytes
  bytes_le : bytes ≤ 2 ^ 28
  offset_lt : offset < bytes

/-- Bytes still available for allocation: the tail of the active segment
plus the full segments not yet entered. -/
def availOf (count bytes : Nat) (h : Heap) : Nat :=
  (h.heapEnd - h.ptr) + bytes * (count - 1 - h.segIndex)

/-- A granted allocation is well-placed: nonempty, inside a configured
segment, and below the cursor if that segment is still the active one. -/
def AllocOK (start count offset bytes : Nat) (h : Heap) (p : Nat × Nat) : Prop :=
  0 < p.2 ∧ ∃ i, i < count ∧ segLo start offset i ≤ p.1 ∧
    p.1 + p.2 ≤ segHi start bytes i ∧
    (i < h.segIndex ∨ (i = h.segIndex ∧ p.1 + p.2 ≤ h.ptr))

/-- The allocator state invariant, relative to the configuration and the
list of allocations granted so far. -/
structure HInv (start count offset bytes : Nat) (h : Heap) (gr : List (Nat × Nat)) : Prop where
  use_seg : h.useSegments = true
  st_eq : h.segStart = start
  cnt_eq : h.segCount = count
  byt_eq : h.segBytes = bytes
  off_eq : h.segOffset = offset
  idx_lt : h.segIndex < count
  end_eq : h.heapEnd = segHi start bytes h.segIndex
  lo_le : segLo start offset h.segIndex ≤ h.ptr
  ptr_le : h.ptr ≤ h.heapEnd
  allocs : ∀ p ∈ gr, AllocOK start count offset bytes h p
  disj : gr.Pairwise RangesDisj
  cap : sumSizes gr + availOf count bytes h ≤ totalCap count offset bytes

lemma segLo_lower (start offset i : Nat) (hs : 0 < start) : 2 ^ 28 ≤ segLo start offset i := by
  unfold segLo
  have h1 : 1 * 2 ^ 28 ≤ (start + i) * 2 ^ 28 := Nat.mul_le_mul_right _ (by omega)
  omega

lemma segLo_le_segHi (start offset bytes i : Nat) (ho : offset < bytes) :
    segLo start offset i ≤ segHi start bytes i := by
  unfold segLo segHi
  split <;> omega

lemma segHi_le_segLo (start offset bytes i j : Nat) (hb28 : bytes ≤ 2 ^ 28) (hij : i < j) :
    segHi start bytes i ≤ segLo start offset j := by
  unfold segLo segHi
  have h1 : (start + i + 1) * 2 ^ 28 ≤ (start + j) * 2 ^ 28 :=
    Nat.mul_le_mul_right _ (by omega)
  have h2 : (start + i + 1) * 2 ^ 28 = (start + i) * 2 ^ 28 + 2 ^ 28 := by ring
  split <;> omega

lemma segHi_bound (start bytes count i : Nat) (hw : start + count ≤ 2 ^ 32)
    (hb28 : bytes ≤ 2 ^ 28) (hi : i < count) : segHi start bytes i ≤ 2 ^ 60 := by
  unfold segHi
  have h1 : (start + i) * 2 ^ 28 ≤ (2 ^ 32 - 1) * 2 ^ 28 :=
    Nat.mul_le_mul_right _ (by omega)
  have h2 : (2 ^ 32 - 1) * 2 ^ 28 + 2 ^ 28 = 2 ^ 60 := by norm_num
  omega

lemma sumSizes_append (l1 l2 : List (Nat × Nat)) :
    sumSizes (l1 ++ l2) = sumSizes l1 + sumSizes l2 := by
  unfold sumSizes
  rw [List.map_append, List.sum_append]

/-- `FB_SEGMENT_ADDR` is plain positional arithmetic when the offset fits
the 28-bit field. -/
lemma FB_SEGMENT_ADDR_eq (seg off : Nat) (ho : off < 2 ^ 28) :
    FB_SEGMENT_ADDR seg off = seg * 2 ^ 28 + off := by
  unfold FB_SEGMENT_ADDR
  rw [show (0x0FFFFFFF : Nat) = 2 ^ 28 - 1 by norm_num, Nat.and_pow_two_sub_one_eq_mod,
      Nat.mod_eq_of_lt ho, Nat.shiftLeft_eq]
  have h := Nat.mul_add_lt_is_or ho seg
  rw [Nat.mul_comm (2 ^ 28) seg] at h
  exact h.symm

/-- Clearing the low three bits of a 64-bit value rounds it down to a
multiple of 8. -/
lemma and_mask_low3 (x : Nat) (hx : x < 2 ^ 64) : x &&& (2 ^ 64 - 8) = x / 8 * 8 := by
  have hm : (2 ^ 64 - 8 : Nat) = (2 ^ 61 - 1) <<< 3 := by
    rw [Nat.shiftLeft_eq]
    norm_num
  have hx8 : x / 8 * 8 = (x >>> 3) <<< 3 := by
    rw [Nat.shiftRight_eq_div_pow, Nat.shiftLeft_eq]
  rw [hm, hx8]
  apply Nat.eq_of_testBit_eq
  intro i
  rw [Nat.testBit_land, Nat.testBit_shiftLeft, Nat.testBit_shiftLeft, Nat.testBit_shiftRight,
      Nat.testBit_two_pow_sub_one]
  by_cases h3 : 3 ≤ i
  · by_cases h64 : i < 64
    · have hi : 3 + (i - 3) = i := by omega
      simp [h3, show i - 3 < 61 by omega, hi]
    · have hbit : x.testBit i = false := by
        apply Nat.testBit_lt_two_pow
        calc x < 2 ^ 64 := hx
          _ ≤ 2 ^ i := Nat.pow_le_pow_right (by norm_num) (by omega)
      simp [h3, hbit, show ¬(i - 3 < 61) by omega]
  · simp [h3]

/-- `fb_align_up` with alignment 8 on a non-wrapping size. -/
lemma fb_align_up_eq (v : Nat) (hv : v + 7 < 2 ^ 64) :
    fb_align_up v 8 = (v + 7) / 8 * 8 := by
  unfold fb_align_up U64
  have h1 : v + 8 - 1 = v + 7 := by omega
  rw [h1, Nat.mod_eq_of_lt (by omega),
      Nat.mod_eq_of_lt (show (18446744073709551616 : Nat) - 8 < 18446744073709551616 by omega)]
  have := and_mask_low3 (v + 7) (by omega)
  norm_num at this ⊢
  exact this

lemma fb_align_up_pos (v : Nat) (hv0 : 0 < v) (hv : v + 7 < 2 ^ 64) :
    0 < fb_align_up v 8 := by
  rw [fb_align_up_eq v hv]
  have : 1 ≤ (v + 7) / 8 := (Nat.le_div_iff_mul_le (by norm_num)).mpr (by omega)
  omega

lemma fb_align_up_le (v : Nat) (hv : v + 7 < 2 ^ 64) : fb_align_up v 8 ≤ v + 7 := by
  rw [fb_align_up_eq v hv]
  have := Nat.div_mul_le_self (v + 7) 8
  omega

lemma AllocOK_mono (start count offset bytes : Nat) (h h3 : Heap) (p : Nat × Nat)
    (hp : AllocOK start count offset bytes h p)
    (hcase : h.segIndex < h3.segIndex ∨ (h3.segIndex = h.segIndex ∧ h.ptr ≤ h3.ptr)) :
    AllocOK start count offset bytes h3 p := by
  obtain ⟨hpos, i, hi, hlo, hhi, hloc⟩ := hp
  refine ⟨hpos, i, hi, hlo, hhi, ?_⟩
  rcases hcase with hlt | ⟨heq, hle⟩
  · left
    rcases hloc with h1 | ⟨h1, _⟩ <;> omega
  · rcases hloc with h1 | ⟨h1, h2⟩
    · left
      omega
    · right
      exact ⟨by omega, le_trans h2 hle⟩

lemma AllocOK_le_ptr (start count offset bytes : Nat) (h : Heap) (q : Nat × Nat)
    (hb28 : bytes ≤ 2 ^ 28)
    (hq : AllocOK start count offset bytes h q)
    (hlo : segLo start offset h.segIndex ≤ h.ptr) : q.1 + q.2 ≤ h.ptr := by
  obtain ⟨_, i, hi, _, hhi, hloc⟩ := hq
  rcases hloc with h1 | ⟨h1, h2⟩
  · have := segHi_le_segLo start offset bytes i h.segIndex hb28 h1
    omega
  · exact h2

lemma seg_unique (start offset bytes : Nat) (hb28 : bytes ≤ 2 ^ 28)
    (p : Nat × Nat) (hp : 0 < p.2) (i j : Nat)
    (h1 : segLo start offset i ≤ p.1 ∧ p.1 + p.2 ≤ segHi start bytes i)
    (h2 : segLo start offset j ≤ p.1 ∧ p.1 + p.2 ≤ segHi start bytes j) : i = j := by
  by_contra hne
  rcases Nat.lt_or_ge i j with hij | hij
  · have := segHi_le_segLo start offset bytes i j hb28 hij
    omega
  · have hji : j < i := by omega
    have := segHi_le_segLo start offset bytes j i hb28 hji
    omega

/-- Evaluation of `fb_heap_set_segment` at a valid nonzero index. -/
lemma fb_heap_set_segment_pos (h : Heap) (index : Nat)
    (hs : h.segStart ≠ 0) (hcnt : h.segCount ≠ 0) (hidx : index < h.segCount)
    (hnz : index ≠ 0) (hb : 0 < h.segBytes) :
    fb_heap_set_segment h index =
      some { h with
             ptr := FB_SEGMENT_ADDR ((h.segStart + index) % U32) 0
             heapEnd := (FB_SEGMENT_ADDR ((h.segStart + index) % U32) 0 +
               (h.segBytes - 0)) % U64 } := by
  unfold fb_heap_set_segment
  rw [if_neg (by tauto), if_neg (by omega), if_neg hnz, if_neg (by omega)]

/-- Evaluation of `fb_heap_set_segment` at index zero with a valid offset. -/
lemma fb_heap_set_segment_zero (h : Heap)
    (hs : h.segStart ≠ 0) (hcnt : h.segCount ≠ 0) (hoff : h.segOffset < h.segBytes) :
    fb_heap_set_segment h 0 =
      some { h with
             ptr := FB_SEGMENT_ADDR (h.segStart % U32) h.segOffset
             heapEnd := (FB_SEGMENT_ADDR (h.segStart % U32) h.segOffset +
               (h.segBytes - h.segOffset)) % U64 } := by
  unfold fb_heap_set_segment
  rw [if_neg (by tauto), if_neg (by omega), if_pos rfl, if_neg (by omega)]
  simp

/-- Advancing the active segment inside the `fb_malloc` retry loop keeps the
invariant, moves the cursor to the new segment base, and cannot increase the
available capacity. -/
lemma fb_advance_step (start count offset bytes : Nat)
    (hc : GoodCfg start count offset bytes) (h : Heap) (gr : List (Nat × Nat))
    (inv : HInv start count offset bytes h gr) (hadv : h.segIndex + 1 < count) :
    ∃ h3, fb_heap_set_segment { h with segIndex := (h.segIndex + 1) % U32 }
        ((h.segIndex + 1) % U32) = some h3 ∧
      HInv start count offset bytes h3 gr ∧
      h3.segIndex = h.segIndex + 1 ∧
      h3.ptr = segLo start offset (h.segIndex + 1) ∧
      h3.heapEnd = segHi start bytes (h.segIndex + 1) ∧
      availOf count bytes h3 ≤ availOf count bytes h := by
  have hU32 : U32 = 2 ^ 32 := by norm_num [U32]
  have hU64 : U64 = 2 ^ 64 := by norm_num [U64]
  have hcnt32 : count ≤ 2 ^ 32 - 1 := by
    have := hc.no_wrap
    have := hc.start_pos
    omega
  have hidx : (h.segIndex + 1) % U32 = h.segIndex + 1 := by
    rw [hU32]
    exact Nat.mod_eq_of_lt (by omega)
  have hseg : (start + (h.segIndex + 1)) % U32 = start + (h.segIndex + 1) := by
    rw [hU32]
    have := hc.no_wrap
    exact Nat.mod_eq_of_lt (by omega)
  have hbase : FB_SEGMENT_ADDR (start + (h.segIndex + 1)) 0 =
      (start + (h.segIndex + 1)) * 2 ^ 28 := by
    rw [FB_SEGMENT_ADDR_eq _ _ (by norm_num)]
    omega
  have hlo1 : segLo start offset (h.segIndex + 1) = (start + (h.segIndex + 1)) * 2 ^ 28 := by
    unfold segLo
    simp
  have hhiB : segHi start bytes (h.segIndex + 1) ≤ 2 ^ 60 :=
    segHi_bound start bytes count _ hc.no_wrap hc.bytes_le (by omega)
  have hend : ((start + (h.segIndex + 1)) * 2 ^ 28 + bytes) % U64 =
      segHi start bytes (h.segIndex + 1) := by
    rw [hU64]
    have he : (start + (h.segIndex + 1)) * 2 ^ 28 + bytes = segHi start bytes (h.segIndex + 1) := by
      unfold segHi
      ring
    rw [he]
    exact Nat.mod_eq_of_lt (by omega)
  have h4 : bytes * (count - 1 - h.segIndex) =
      bytes * (count - 1 - (h.segIndex + 1)) + bytes := by
    rw [show count - 1 - h.segIndex = (count - 1 - (h.segIndex + 1)) + 1 by omega,
        Nat.mul_add, Nat.mul_one]
  refine ⟨{ h with
            segIndex := h.segIndex + 1
            ptr := (start + (h.segIndex + 1)) * 2 ^ 28
            heapEnd := segHi start bytes (h.segIndex + 1) }, ?_, ?_, by rfl, ?_, by rfl, ?_⟩
  · have hs1 : ({ h with segIndex := h.segIndex + 1 } : Heap).segStart ≠ 0 := by
      show h.segStart ≠ 0
      rw [inv.st_eq]
      have := hc.start_pos
      omega
    have hs2 : ({ h with segIndex := h.segIndex + 1 } : Heap).segCount ≠ 0 := by
      show h.segCount ≠ 0
      rw [inv.cnt_eq]
      omega
    have hs3 : h.segIndex + 1 < ({ h with segIndex := h.segIndex + 1 } : Heap).segCount := by
      show h.segIndex + 1 < h.segCount
      rw [inv.cnt_eq]
      exact hadv
    have hs5 : 0 < ({ h with segIndex := h.segIndex + 1 } : Heap).segBytes := by
      show 0 < h.segBytes
      rw [inv.byt_eq]
      exact hc.bytes_pos
    rw [hidx, fb_heap_set_segment_pos { h with segIndex := h.segIndex + 1 } (h.segIndex + 1)
      hs1 hs2 hs3 (by omega) hs5]
    simp only [inv.st_eq, inv.byt_eq, Nat.sub_zero, hseg, hbase, hend]
  · refine ⟨inv.use_seg, inv.st_eq, inv.cnt_eq, inv.byt_eq, inv.off_eq, ?_, by rfl, ?_, ?_, ?_,
      inv.disj, ?_⟩
    · show h.segIndex + 1 < count
      exact hadv
    · show segLo start offset (h.segIndex + 1) ≤ (start + (h.segIndex + 1)) * 2 ^ 28
      rw [hlo1]
    · show (start + (h.segIndex + 1)) * 2 ^ 28 ≤ segHi start bytes (h.segIndex + 1)
      unfold segHi
      omega
    · intro p hp
      refine AllocOK_mono start count offset bytes h _ p (inv.allocs p hp) (Or.inl ?_)
      show h.segIndex < h.segIndex + 1
      omega
    · show sumSizes gr + availOf count bytes _ ≤ totalCap count offset bytes
      have hcap := inv.cap
      unfold availOf at hcap ⊢
      show sumSizes gr +
          ((segHi start bytes (h.segIndex + 1) - (start + (h.segIndex + 1)) * 2 ^ 28) +
            bytes * (count - 1 - (h.segIndex + 1))) ≤ totalCap count offset bytes
      unfold segHi at *
      omega
  · show (start + (h.segIndex + 1)) * 2 ^ 28 = segLo start offset (h.segIndex + 1)
    rw [hlo1]
  · have hcap := inv.cap
    unfold availOf
    show (segHi start bytes (h.segIndex + 1) - (start + (h.segIndex + 1)) * 2 ^ 28) +
        bytes * (count - 1 - (h.segIndex + 1)) ≤
      (h.heapEnd - h.ptr) + bytes * (count - 1 - h.segIndex)
    unfold segHi
    omega

/-- Granting an allocation at the cursor preserves the invariant with the
new allocation appended. -/
lemma fb_grant_step (start count offset bytes : Nat)
    (hc : GoodCfg start count offset bytes) (h : Heap) (gr : List (Nat × Nat)) (sz : Nat)
    (inv : HInv start count offset bytes h gr) (hsz : 0 < sz)
    (hfit : h.ptr + sz ≤ h.heapEnd) :
    HInv start count offset bytes { h with ptr := h.ptr + sz } (gr ++ [(h.ptr, sz)]) := by
  refine ⟨inv.use_seg, inv.st_eq, inv.cnt_eq, inv.byt_eq, inv.off_eq, inv.idx_lt,
    inv.end_eq, ?_, hfit, ?_, ?_, ?_⟩
  · show segLo start offset h.segIndex ≤ h.ptr + sz
    have := inv.lo_le
    omega
  · intro p hp
    rcases List.mem_append.mp hp with hin | hin
    · refine AllocOK_mono start count offset bytes h _ p (inv.allocs p hin) (Or.inr ⟨rfl, ?_⟩)
      show h.ptr ≤ h.ptr + sz
      omega
    · have hpe : p = (h.ptr, sz) := by simpa using hin
      subst hpe
      refine ⟨hsz, h.segIndex, inv.idx_lt, inv.lo_le, ?_, Or.inr ⟨rfl, le_rfl⟩⟩
      rw [← inv.end_eq]
      exact hfit
  · rw [List.pairwise_append]
    refine ⟨inv.disj, List.pairwise_singleton _ _, ?_⟩
    intro q hq r hr
    have hre : r = (h.ptr, sz) := by simpa using hr
    subst hre
    show q.1 + q.2 ≤ h.ptr ∨ h.ptr + sz ≤ q.1
    exact Or.inl (AllocOK_le_ptr start count offset bytes h q hc.bytes_le
      (inv.allocs q hq) inv.lo_le)
  · rw [sumSizes_append]
    have hone : sumSizes [(h.ptr, sz)] = sz := by
      simp [sumSizes]
    have hcap := inv.cap
    unfold availOf at hcap ⊢
    show sumSizes gr + sumSizes [(h.ptr, sz)] +
        ((h.heapEnd - (h.ptr + sz)) + bytes * (count - 1 - h.segIndex)) ≤
      totalCap count offset bytes
    omega

/-- Main specification of the `fb_malloc` retry loop: under the invariant,
with a nonzero non-wrapping rounded size and enough fuel, the loop returns;
a non-null result is the old cursor and extends the granted list, the
invariant is preserved, the segment index never decreases, and the cursor
never decreases while the segment is unchanged. -/
lemma fb_malloc_loop_spec (start count offset bytes : Nat)
    (hc : GoodCfg start count offset bytes) :
    ∀ fuel h gr sz, HInv start count offset bytes h gr →
      0 < sz → sz ≤ 2 ^ 63 + 8 → count - h.segIndex < fuel →
      ∃ p h2, fb_malloc_loop h sz fuel = some (p, h2) ∧
        HInv start count offset bytes h2 (gr ++ (if p ≠ 0 then [(p, sz)] else [])) ∧
        h.segIndex ≤ h2.segIndex ∧ (h.segIndex = h2.segIndex → h.ptr ≤ h2.ptr) := by
  intro fuel
  induction fuel with
  | zero =>
    intro h gr sz _ _ _ hfuel
    omega
  | succ fuel ih =>
    intro h gr sz inv hsz hsz2 hfuel
    have hU64 : U64 = 2 ^ 64 := by norm_num [U64]
    have hU32 : U32 = 2 ^ 32 := by norm_num [U32]
    have hEndB : h.heapEnd ≤ 2 ^ 60 := by
      rw [inv.end_eq]
      exact segHi_bound start bytes count h.segIndex hc.no_wrap hc.bytes_le inv.idx_lt
    have hPtrB : h.ptr ≤ 2 ^ 60 := le_trans inv.ptr_le hEndB
    have hmod : (h.ptr + sz) % U64 = h.ptr + sz := by
      rw [hU64]
      exact Nat.mod_eq_of_lt (by omega)
    have hcnt32 : count ≤ 2 ^ 32 - 1 := by
      have := hc.no_wrap
      have := hc.start_pos
      omega
    have hidxmod : (h.segIndex + 1) % U32 = h.segIndex + 1 := by
      rw [hU32]
      have := inv.idx_lt
      exact Nat.mod_eq_of_lt (by omega)
    by_cases hfit : h.heapEnd < h.ptr + sz
    · by_cases hadv : h.segIndex + 1 < count
      · obtain ⟨h3, hset, inv3, hidx3, hptr3, hend3, _⟩ :=
          fb_advance_step start count offset bytes hc h gr inv hadv
        obtain ⟨p, h2, hloop, inv2, hmono1, hmono2⟩ :=
          ih h3 gr sz inv3 hsz hsz2 (by rw [hidx3]; omega)
        have hcond2 : h.useSegments = true ∧ (h.segIndex + 1) % U32 < h.segCount := by
          rw [hidxmod, inv.cnt_eq]
          exact ⟨inv.use_seg, hadv⟩
        refine ⟨p, h2, ?_, inv2, ?_, ?_⟩
        · simp only [fb_malloc_loop]
          rw [hmod, if_pos hfit, if_pos hcond2, hset]
          exact hloop
        · rw [hidx3] at hmono1
          omega
        · intro heq
          rw [hidx3] at hmono1
          omega
      · have hcondF : ¬(h.useSegments = true ∧ (h.segIndex + 1) % U32 < h.segCount) := by
          rw [hidxmod, inv.cnt_eq]
          rintro ⟨-, hlt⟩
          omega
        refine ⟨0, h, ?_, ?_, le_rfl, fun _ => le_rfl⟩
        · simp only [fb_malloc_loop]
          rw [hmod, if_pos hfit, if_neg hcondF]
        · simpa using inv
    · push_neg at hfit
      have hp0 : h.ptr ≠ 0 := by
        have h1 := segLo_lower start offset h.segIndex hc.start_pos
        have h2 := inv.lo_le
        omega
      refine ⟨h.ptr, { h with ptr := h.ptr + sz }, ?_, ?_, le_rfl, fun _ => ?_⟩
      · simp only [fb_malloc_loop]
        rw [hmod, if_neg (by omega)]
      · rw [if_pos hp0]
        exact fb_grant_step start count offset bytes hc h gr sz inv hsz hfit
      · show h.ptr ≤ h.ptr + sz
        omega

/-- Specification of a single `fb_malloc` call from an invariant state. -/
lemma fb_malloc_spec (start count offset bytes : Nat)
    (hc : GoodCfg start count offset bytes) (h : Heap) (gr : List (Nat × Nat))
    (inv : HInv start count offset bytes h gr) (r : Nat) (hr : r ≤ 2 ^ 63) :
    ∃ p h2, fb_malloc h r = some (p, h2) ∧
      HInv start count offset bytes h2 (gr ++ (if p ≠ 0 then [(p, fb_align_up r 8)] else [])) ∧
      h.segIndex ≤ h2.segIndex ∧ (h.segIndex = h2.segIndex → h.ptr ≤ h2.ptr) := by
  by_cases hr0 : r = 0
  · subst hr0
    refine ⟨0, h, by simp [fb_malloc], ?_, le_rfl, fun _ => le_rfl⟩
    simpa using inv
  · have hnwrap : r + 7 < 2 ^ 64 := by omega
    have hszpos := fb_align_up_pos r (by omega) hnwrap
    have hszle := fb_align_up_le r hnwrap
    have hp0 : h.ptr ≠ 0 := by
      have h1 := segLo_lower start offset h.segIndex hc.start_pos
      have h2 := inv.lo_le
      omega
    have he0 : h.heapEnd ≠ 0 := by
      have := inv.ptr_le
      omega
    have hinit : fb_heap_init_default h = some h := by
      unfold fb_heap_init_default
      rw [if_neg (by tauto)]
    obtain ⟨p, h2, hloop, inv2, m1, m2⟩ :=
      fb_malloc_loop_spec start count offset bytes hc (h.segCount + 2) h gr
        (fb_align_up r 8) inv hszpos (by omega)
        (by rw [inv.cnt_eq]; omega)
    refine ⟨p, h2, ?_, inv2, m1, m2⟩
    unfold fb_malloc
    rw [if_neg hr0, hinit]
    exact hloop

/-- Once the granted bytes reach the configured capacity, every further
call with a non-wrapping size returns NULL and leaves the state unchanged. -/
lemma fb_malloc_exhausted (start count offset bytes : Nat)
    (hc : GoodCfg start count offset bytes) (h : Heap) (gr : List (Nat × Nat))
    (inv : HInv start count offset bytes h gr)
    (hfull : totalCap count offset bytes ≤ sumSizes gr) (r : Nat) (hr : r ≤ 2 ^ 63) :
    fb_malloc h r = some (0, h) := by
  have hcap := inv.cap
  have havail : availOf count bytes h = 0 := by omega
  unfold availOf at havail
  have hend : h.heapEnd ≤ h.ptr := by omega
  have hmul : bytes * (count - 1 - h.segIndex) = 0 := by omega
  have hlast : count - 1 - h.segIndex = 0 := by
    rcases Nat.mul_eq_zero.mp hmul with hb0 | hx
    · exact absurd hb0 (by have := hc.bytes_pos; omega)
    · exact hx
  have hieq : h.segIndex + 1 = count := by
    have := inv.idx_lt
    omega
  by_cases hr0 : r = 0
  · subst hr0
    simp [fb_malloc]
  · have hnwrap : r + 7 < 2 ^ 64 := by omega
    have hszpos := fb_align_up_pos r (by omega) hnwrap
    have hszle := fb_align_up_le r hnwrap
    have hp0 : h.ptr ≠ 0 := by
      have h1 := segLo_lower start offset h.segIndex hc.start_pos
      have h2 := inv.lo_le
      omega
    have he0 : h.heapEnd ≠ 0 := by
      have h1 := segLo_lower start offset h.segIndex hc.start_pos
      have h2 := inv.lo_le
      have h3 := inv.ptr_le
      omega
    have hinit : fb_heap_init_default h = some h := by
      unfold fb_heap_init_default
      rw [if_neg (by tauto)]
    have hU64 : U64 = 2 ^ 64 := by norm_num [U64]
    have hU32 : U32 = 2 ^ 32 := by norm_num [U32]
    have hEndB : h.heapEnd ≤ 2 ^ 60 := by
      rw [inv.end_eq]
      exact segHi_bound start bytes count h.segIndex hc.no_wrap hc.bytes_le inv.idx_lt
    have hPtrB : h.ptr ≤ 2 ^ 60 := le_trans inv.ptr_le hEndB
    have hmod : (h.ptr + fb_align_up r 8) % U64 = h.ptr + fb_align_up r 8 := by
      rw [hU64]
      exact Nat.mod_eq_of_lt (by omega)
    have hcnt32 : count ≤ 2 ^ 32 - 1 := by
      have := hc.no_wrap
      have := hc.start_pos
      omega
    have hidxmod : (h.segIndex + 1) % U32 = h.segIndex + 1 := by
      rw [hU32]
      have := inv.idx_lt
      exact Nat.mod_eq_of_lt (by omega)
    have hcondF : ¬(h.useSegments = true ∧ (h.segIndex + 1) % U32 < h.segCount) := by
      rw [hidxmod, inv.cnt_eq]
      rintro ⟨-, hlt⟩
      omega
    unfold fb_malloc
    rw [if_neg hr0, hinit]
    show fb_malloc_loop h (fb_align_up r 8) (h.segCount + 2) = some (0, h)
    rw [inv.cnt_eq]
    simp only [fb_malloc_loop]
    rw [hmod, if_pos (by omega), if_neg hcondF]

/-- Per-call monotonicity: the segment index never decreases, and the
cursor never decreases while the segment is unchanged. -/
def StepMono (a b : Heap) : Prop :=
  a.segIndex ≤ b.segIndex ∧ (a.segIndex = b.segIndex → a.ptr ≤ b.ptr)

lemma fb_final_cons (h : Heap) (x : Nat × Heap) (tr : List (Nat × Heap)) :
    fb_final h (x :: tr) = fb_final x.2 tr := by
  cases tr with
  | nil => simp [fb_final]
  | cons y l =>
    unfold fb_final
    rw [List.getLast?_cons_cons]
    cases hgl : (y :: l).getLast? with
    | none => simp at hgl
    | some z => rfl

/-- Specification of a whole request sequence: the run succeeds, the final
state satisfies the invariant with all granted allocations appended, and
consecutive states are monotone. -/
lemma fb_run_spec (start count offset bytes : Nat)
    (hc : GoodCfg start count offset bytes) :
    ∀ reqs h gr, HInv start count offset bytes h gr → (∀ r ∈ reqs, r ≤ 2 ^ 63) →
      ∃ tr, fb_run h reqs = some tr ∧
        HInv start count offset bytes (fb_final h tr) (gr ++ fb_granted reqs tr) ∧
        List.Chain' StepMono (h :: tr.map Prod.snd) := by
  intro reqs
  induction reqs with
  | nil =>
    intro h gr inv _
    refine ⟨[], rfl, ?_, ?_⟩
    · simpa [fb_final, fb_granted] using inv
    · simp
  | cons r rs ih =>
    intro h gr inv hreq
    obtain ⟨p, h2, hmal, inv2, m1, m2⟩ :=
      fb_malloc_spec start count offset bytes hc h gr inv r (hreq r (by simp))
    obtain ⟨tr2, hrun2, invf, chain2⟩ := ih h2 _ inv2 (fun x hx => hreq x (by simp [hx]))
    refine ⟨(p, h2) :: tr2, ?_, ?_, ?_⟩
    · simp only [fb_run, hmal, hrun2]
    · rw [fb_final_cons]
      have hgr : fb_granted (r :: rs) ((p, h2) :: tr2) =
          (if p ≠ 0 then [(p, fb_align_up r 8)] else []) ++ fb_granted rs tr2 := rfl
      rw [hgr, ← List.append_assoc]
      exact invf
    · rw [List.map_cons, List.chain'_cons]
      exact ⟨⟨m1, m2⟩, chain2⟩

/-- A panic-free configuration call establishes the invariant. -/
lemma fb_init_inv (start count offset bytes : Nat)
    (hc : GoodCfg start count offset bytes) :
    fb_heap_init_segments fb_initial_heap start count offset bytes =
      some { ptr := segLo start offset 0
             heapEnd := segHi start bytes 0
             segStart := start
             segCount := count
             segIndex := 0
             segBytes := bytes
             segOffset := offset
             useSegments := true } ∧
    HInv start count offset bytes
      { ptr := segLo start offset 0
        heapEnd := segHi start bytes 0
        segStart := start
        segCount := count
        segIndex := 0
        segBytes := bytes
        segOffset := offset
        useSegments := true } [] := by
  have hU64 : U64 = 2 ^ 64 := by norm_num [U64]
  have hU32 : U32 = 2 ^ 32 := by norm_num [U32]
  have hofflt : offset < 2 ^ 28 := by
    have := hc.offset_lt
    have := hc.bytes_le
    omega
  have hstart32 : start % U32 = start := by
    rw [hU32]
    have := hc.no_wrap
    have := hc.count_pos
    exact Nat.mod_eq_of_lt (by omega)
  have hlo0 : FB_SEGMENT_ADDR start offset = segLo start offset 0 := by
    rw [FB_SEGMENT_ADDR_eq start offset hofflt]
    unfold segLo
    simp
  have hhiB : segHi start bytes 0 ≤ 2 ^ 60 :=
    segHi_bound start bytes count 0 hc.no_wrap hc.bytes_le hc.count_pos
  have hend0 : (segLo start offset 0 + (bytes - offset)) % U64 = segHi start bytes 0 := by
    rw [hU64]
    have he : segLo start offset 0 + (bytes - offset) = segHi start bytes 0 := by
      unfold segLo segHi
      have := hc.offset_lt
      simp
      omega
    rw [he]
    exact Nat.mod_eq_of_lt (by omega)
  constructor
  · unfold fb_heap_init_segments
    rw [if_neg (by
      have := hc.start_pos
      have := hc.count_pos
      have := hc.bytes_pos
      rintro (hz | hz | hz) <;> omega)]
    rw [fb_heap_set_segment_zero _
      (by show start ≠ 0; have := hc.start_pos; omega)
      (by show count ≠ 0; have := hc.count_pos; omega)
      (by show offset < bytes; exact hc.offset_lt)]
    simp only [hstart32, hlo0, hend0]
  · refine ⟨rfl, rfl, rfl, rfl, rfl, hc.count_pos, rfl, le_rfl, ?_, by simp, by simp, ?_⟩
    · show segLo start offset 0 ≤ segHi start bytes 0
      exact segLo_le_segHi start offset bytes 0 hc.offset_lt
    · show sumSizes [] + availOf count bytes _ ≤ totalCap count offset bytes
      have hzero : sumSizes ([] : List (Nat × Nat)) = 0 := by simp [sumSizes]
      unfold availOf totalCap
      show sumSizes [] + ((segHi start bytes 0 - segLo start offset 0) +
          bytes * (count - 1 - 0)) ≤ (bytes - offset) + bytes * (count - 1)
      unfold segLo segHi
      simp only [Nat.sub_zero]
      have := hc.offset_lt
      simp
      omega

/-- C1 as amended: for every configuration accepted by
`fb_heap_init_segments` whose per-segment size fits the 28-bit offset field
(`bytes ≤ 2^28`) and whose segment identifiers do not wrap the 32-bit
counter (`start + count ≤ 2^32`), and every request sequence with
non-wrapping sizes (`r ≤ 2^63`): no two non-null returned allocations
overlap, each returned allocation lies within the bounds of exactly one
configured segment, and along the run the segment index never decreases
while the cursor never decreases within a segment. -/
theorem c1_allocator_invariants (start count offset bytes : Nat) (reqs : List Nat)
    (hs : 0 < start) (hcnt : 0 < count) (hw : start + count ≤ 2 ^ 32)
    (hb : 0 < bytes) (hb28 : bytes ≤ 2 ^ 28) (ho : offset < bytes)
    (hreq : ∀ r ∈ reqs, r ≤ 2 ^ 63)
    (h0 : Heap)
    (hinit : fb_heap_init_segments fb_initial_heap start count offset bytes = some h0)
    (tr : List (Nat × Heap)) (hrun : fb_run h0 reqs = some tr) :
    (fb_granted reqs tr).Pairwise RangesDisj ∧
    (∀ p ∈ fb_granted reqs tr, ∃! i, i < count ∧ segLo start offset i ≤ p.1 ∧
      p.1 + p.2 ≤ segHi start bytes i) ∧
    List.Chain' StepMono (h0 :: tr.map Prod.snd) := by
  have hc : GoodCfg start count offset bytes := ⟨hs, hcnt, hw, hb, hb28, ho⟩
  obtain ⟨hinit2, inv0⟩ := fb_init_inv start count offset bytes hc
  rw [hinit2] at hinit
  injection hinit with hh0
  subst hh0
  obtain ⟨tr2, hrun2, invf, chain⟩ :=
    fb_run_spec start count offset bytes hc reqs _ [] inv0 hreq
  rw [hrun2] at hrun
  injection hrun with htr
  subst htr
  refine ⟨?_, ?_, chain⟩
  · have hd := invf.disj
    simpa using hd
  · intro p hp
    have hall := invf.allocs p (by simpa using hp)
    obtain ⟨hpos, i, hi, hlo, hhi, _⟩ := hall
    refine ⟨i, ⟨hi, hlo, hhi⟩, ?_⟩
    rintro j ⟨_, hjlo, hjhi⟩
    exact seg_unique start offset bytes hb28 p hpos j i ⟨hjlo, hjhi⟩ ⟨hlo, hhi⟩

/-- Witness for C1 at a 2-segment 64-byte configuration with one request. -/
theorem c1_allocator_invariants_witness :
    (fb_granted [8]
        [(268435456, { ptr := 268435464, heapEnd := 268435520, segStart := 1, segCount := 2,
                       segIndex := 0, segBytes := 64, segOffset := 0,
                       useSegments := true })]).Pairwise RangesDisj ∧
    (∀ p ∈ fb_granted [8]
        [(268435456, { ptr := 268435464, heapEnd := 268435520, segStart := 1, segCount := 2,
                       segIndex := 0, segBytes := 64, segOffset := 0,
                       useSegments := true })],
      ∃! i, i < 2 ∧ segLo 1 0 i ≤ p.1 ∧ p.1 + p.2 ≤ segHi 1 64 i) ∧
    List.Chain' StepMono
      ({ ptr := 268435456, heapEnd := 268435520, segStart := 1, segCount := 2, segIndex := 0,
         segBytes := 64, segOffset := 0, useSegments := true } ::
        ([(268435456, { ptr := 268435464, heapEnd := 268435520, segStart := 1, segCount := 2,
                        segIndex := 0, segBytes := 64, segOffset := 0,
                        useSegments := true })].map Prod.snd)) :=
  c1_allocator_invariants 1 2 0 64 [8] (by norm_num) (by norm_num) (by norm_num)
    (by norm_num) (by norm_num) (by norm_num) (by decide)
    { ptr := 268435456, heapEnd := 268435520, segStart := 1, segCount := 2, segIndex := 0,
      segBytes := 64, segOffset := 0, useSegments := true } (by decide)
    [(268435456, { ptr := 268435464, heapEnd := 268435520, segStart := 1, segCount := 2,
                   segIndex := 0, segBytes := 64, segOffset := 0, useSegments := true })]
    (by decide)

/-- C4 as amended: once the bytes granted through non-null returns reach the
configured capacity, every subsequent `fb_malloc` call with a non-wrapping
request size returns NULL and leaves the state unchanged; and in the
concrete 2-segment 64-byte scenario, requests of 48 and 48 bytes succeed at
segment 1 and at offset 0 of segment 2 respectively, and a third 48-byte
request returns NULL.  (The claim's accounting of denied requests, and
requests large enough to wrap the cursor arithmetic, are refuted by
`c4_counterexample`.) -/
theorem c4_exhaustion (start count offset bytes : Nat) (reqs : List Nat)
    (hs : 0 < start) (hcnt : 0 < count) (hw : start + count ≤ 2 ^ 32)
    (hb : 0 < bytes) (hb28 : bytes ≤ 2 ^ 28) (ho : offset < bytes)
    (hreq : ∀ r ∈ reqs, r ≤ 2 ^ 63)
    (h0 : Heap)
    (hinit : fb_heap_init_segments fb_initial_heap start count offset bytes = some h0)
    (tr : List (Nat × Heap)) (hrun : fb_run h0 reqs = some tr)
    (hfull : totalCap count offset bytes ≤ sumSizes (fb_granted reqs tr)) :
    (∀ rs, (∀ r ∈ rs, r ≤ 2 ^ 63) →
      fb_run (fb_final h0 tr) rs = some (rs.map (fun _ => (0, fb_final h0 tr)))) ∧
    fb_run_granted 1 2 0 64 [48, 48, 48] = some (some [(268435456, 48), (536870912, 48)]) ∧
    fb_run_marks 1 2 0 64 [48, 48, 48] =
      some (some [(268435456, 0, 268435504), (536870912, 1, 536870960), (0, 1, 536870960)]) := by
  have hc : GoodCfg start count offset bytes := ⟨hs, hcnt, hw, hb, hb28, ho⟩
  obtain ⟨hinit2, inv0⟩ := fb_init_inv start count offset bytes hc
  rw [hinit2] at hinit
  injection hinit with hh0
  rw [hh0] at inv0
  obtain ⟨tr2, hrun2, invf, _⟩ :=
    fb_run_spec start count offset bytes hc reqs h0 [] inv0 hreq
  rw [hrun2] at hrun
  injection hrun with htr
  subst htr
  have invf2 : HInv start count offset bytes (fb_final h0 tr2) (fb_granted reqs tr2) := by
    simpa using invf
  have hstep : ∀ r, r ≤ 2 ^ 63 →
      fb_malloc (fb_final h0 tr2) r = some (0, fb_final h0 tr2) :=
    fun r hr => fb_malloc_exhausted start count offset bytes hc _ _ invf2 hfull r hr
  refine ⟨?_, by decide, by decide⟩
  intro rs
  induction rs with
  | nil => intro; rfl
  | cons a l ihl =>
    intro hrs
    simp only [fb_run, hstep a (hrs a (by simp)), ihl (fun x hx => hrs x (by simp [hx])),
      List.map_cons]

/-- Witness for C4: a 1-segment 64-byte heap filled by one 64-byte request;
a subsequent 8-byte request returns NULL with the state unchanged. -/
theorem c4_exhaustion_witness :
    fb_run (fb_final
        { ptr := 268435456, heapEnd := 268435520, segStart := 1, segCount := 1, segIndex := 0,
          segBytes := 64, segOffset := 0, useSegments := true }
        [(268435456,
          { ptr := 268435520, heapEnd := 268435520, segStart := 1, segCount := 1, segIndex := 0,
            segBytes := 64, segOffset := 0, useSegments := true })]) [8] =
      some ([8].map (fun _ => (0, fb_final
        { ptr := 268435456, heapEnd := 268435520, segStart := 1, segCount := 1, segIndex := 0,
          segBytes := 64, segOffset := 0, useSegments := true }
        [(268435456,
          { ptr := 268435520, heapEnd := 268435520, segStart := 1, segCount := 1, segIndex := 0,
            segBytes := 64, segOffset := 0, useSegments := true })]))) :=
  (c4_exhaustion 1 1 0 64 [64] (by norm_num) (by norm_num) (by norm_num) (by norm_num)
    (by norm_num) (by norm_num) (by decide)
    { ptr := 268435456, heapEnd := 268435520, segStart := 1, segCount := 1, segIndex := 0,
      segBytes := 64, segOffset := 0, useSegments := true } (by decide)
    [(268435456,
      { ptr := 268435520, heapEnd := 268435520, segStart := 1, segCount := 1, segIndex := 0,
        segBytes := 64, segOffset := 0, useSegments := true })] (by decide) (by decide)).1
    [8] (by decide)
